import Mathlib

/-!
Verification of the kulangara-backend order/payment/stock pipeline.

Shallow embedding of the TypeScript source:
  * `src/src/services/cache.service.ts` (stock-service portion): `reserveStock`,
    and (cache portion): `getCache` / `setCache` / `cacheWrapper`;
  * `src/src/controllers/order.controller.ts`: `createOrder`,
    `createRazorpayOrderFromCart`, `verifyPaymentAndCreateOrder`,
    `handleWebhook`, `handlePaymentCaptured` and friends.

Conventions of the embedding:
  * the Prisma store is a record of lists of rows; `find?` models `findUnique` /
    `findFirst`, and a Prisma `update` whose `where` clause matches no row is
    modelled as a thrown error (Prisma raises `P2025` in that case rather than
    returning `null`);
  * JavaScript numbers are modelled as `ℚ`, integer columns as `Int`;
  * `async` functions become state-passing functions; a JS `throw` becomes
    `Except.error`; the interactive `prisma.$transaction` combinator becomes
    `runTx`, which discards all state changes of a body that throws;
  * external collaborators (HMAC, the Razorpay SDK, clocks and id generators)
    are environment parameters in `Env`.
-/

namespace Kulangara

/-! ## Generic list machinery

`updateFirst p f l` replaces the first element of `l` satisfying `p` by its
`f`-image; it models a Prisma `update` on a row located by a (unique) id.
-/

def updateFirst {α : Type} (p : α → Bool) (f : α → α) : List α → List α
  | [] => []
  | x :: xs => if p x then f x :: xs else x :: updateFirst p f xs

theorem updateFirst_mem {α : Type} {p : α → Bool} {f : α → α} {l : List α} {y : α}
    (hy : y ∈ updateFirst p f l) :
    y ∈ l ∨ ∃ x, l.find? p = some x ∧ y = f x := by
  induction l with
  | nil => simp [updateFirst] at hy
  | cons x xs ih =>
    by_cases hx : p x
    · simp only [updateFirst, hx, if_pos] at hy
      rcases List.mem_cons.mp hy with h | h
      · exact Or.inr ⟨x, by simp [List.find?_cons_of_pos _ hx], h⟩
      · exact Or.inl (List.mem_cons_of_mem _ h)
    · simp only [updateFirst, hx, if_neg, Bool.false_eq_true, not_false_iff] at hy
      rcases List.mem_cons.mp hy with h | h
      · exact Or.inl (h ▸ List.mem_cons_self _ _)
      · rcases ih h with h' | ⟨z, hz, hyz⟩
        · exact Or.inl (List.mem_cons_of_mem _ h')
        · exact Or.inr ⟨z, by simp [List.find?_cons_of_neg _ hx, hz], hyz⟩

theorem find?_updateFirst_self {α : Type} {p : α → Bool} {f : α → α}
    (hf : ∀ x, p x = true → p (f x) = true) (l : List α) :
    (updateFirst p f l).find? p = (l.find? p).map f := by
  induction l with
  | nil => simp [updateFirst]
  | cons x xs ih =>
    by_cases hx : p x
    · simp [updateFirst, hx, List.find?_cons_of_pos, hf x hx]
    · simp [updateFirst, hx, List.find?_cons_of_neg, ih]

theorem find?_updateFirst_of_ne {α : Type} {p q : α → Bool} {f : α → α}
    (hq : ∀ x, q (f x) = q x) (hpq : ∀ x, p x = true → q x = false) (l : List α) :
    (updateFirst p f l).find? q = l.find? q := by
  induction l with
  | nil => simp [updateFirst]
  | cons x xs ih =>
    by_cases hx : p x
    · have hqx : q x = false := hpq x hx
      simp [updateFirst, hx, List.find?_cons_of_neg, hq, hqx]
    · by_cases hqx : q x
      · simp [updateFirst, hx, List.find?_cons_of_pos, hqx]
      · simp [updateFirst, hx, List.find?_cons_of_neg, hqx, ih]

theorem map_updateFirst {α β : Type} {p : α → Bool} {f : α → α} (key : α → β)
    (hf : ∀ x, key (f x) = key x) (l : List α) :
    (updateFirst p f l).map key = l.map key := by
  induction l with
  | nil => simp [updateFirst]
  | cons x xs ih =>
    by_cases hx : p x
    · simp [updateFirst, hx, hf]
    · simp [updateFirst, hx, ih]

/-- A `find?` located by a composite predicate `key x == k && p x` agrees with a
`find?` located by the key alone, provided keys are unique in the list.  This is
how a Prisma `update` keyed by unique id relates to a `findFirst` that also
constrains other columns. -/
theorem find?_of_composite_nodup {α : Type} (key : α → String) (p : α → Bool)
    {l : List α} {k : String} {v : α}
    (hnd : (l.map key).Nodup)
    (h : l.find? (fun x => key x == k && p x) = some v) :
    l.find? (fun x => key x == k) = some v := by
  induction l with
  | nil => simp at h
  | cons x xs ih =>
    by_cases hk : key x == k
    · by_cases hp : p x
      · simp only [List.find?, hk, hp, Bool.and_self] at h
        simp only [List.find?, hk]
        exact h
      · simp only [List.find?, hk, hp, Bool.and_false] at h
        have hv := List.find?_some h
        have hvmem := List.mem_of_find?_eq_some h
        have hkv : key v = k := by
          have := Bool.and_elim_left hv
          exact eq_of_beq this
        have hkx : key x = k := eq_of_beq hk
        simp only [List.map_cons, List.nodup_cons] at hnd
        exact absurd (by
          have : key v ∈ xs.map key := List.mem_map_of_mem key hvmem
          rwa [hkv, ← hkx] at this) hnd.1
    · have hk' : (key x == k) = false := by simpa using hk
      simp only [List.find?, hk', Bool.false_and] at h
      simp only [List.find?, hk']
      simp only [List.map_cons, List.nodup_cons] at hnd
      exact ih hnd.2 h

theorem find?_filter_out {α : Type} (p : α → Bool) (l : List α) :
    (l.filter (fun x => !(p x))).find? p = none := by
  rw [List.find?_eq_none]
  intro x hx
  have := (List.mem_filter.mp hx).2
  simp at this
  simp [this]

/-! ## Stock data model

Rows of the `Product` and `ProductVariant` tables, restricted to the columns the
verified code reads or writes.  `Db` is the part of the store that holds stock.
-/

structure Product where
  id : String
  name : String
  price : ℚ
  stockQuantity : Int
  isActive : Bool
deriving DecidableEq

structure Variant where
  id : String
  productId : String
  price : Option ℚ
  stock : Int
  size : String
  color : Option String
deriving DecidableEq

structure Db where
  products : List Product
  variants : List Variant
deriving DecidableEq

/-- A stock unit: either a bare product's `stockQuantity` counter or a
variant's `stock` counter. -/
inductive UnitRef where
  | productU (id : String)
  | variantU (id : String)
deriving DecidableEq

def stockOfU (db : Db) : UnitRef → Int
  | .productU pid => ((db.products.find? (fun p => p.id == pid)).map (fun p => p.stockQuantity)).getD 0
  | .variantU vid => ((db.variants.find? (fun v => v.id == vid)).map (fun v => v.stock)).getD 0

def dbNonneg (db : Db) : Prop :=
  (∀ p ∈ db.products, 0 ≤ p.stockQuantity) ∧ (∀ v ∈ db.variants, 0 ≤ v.stock)

/-- Unique-id well-formedness, the storage layer's unique constraint on ids. -/
def dbIdsNodup (db : Db) : Prop :=
  (db.products.map (fun p => p.id)).Nodup ∧ (db.variants.map (fun v => v.id)).Nodup

def dbWF (db : Db) : Prop := dbNonneg db ∧ dbIdsNodup db

instance (db : Db) : Decidable (dbNonneg db) := by unfold dbNonneg; infer_instance
instance (db : Db) : Decidable (dbIdsNodup db) := by unfold dbIdsNodup; infer_instance
instance (db : Db) : Decidable (dbWF db) := by unfold dbWF; infer_instance

theorem stockOfU_nonneg {db : Db} (h : dbNonneg db) (u : UnitRef) : 0 ≤ stockOfU db u := by
  cases u with
  | productU pid =>
    cases hf : db.products.find? (fun p => p.id == pid) with
    | none => simp [stockOfU, hf]
    | some p => simpa [stockOfU, hf] using h.1 p (List.mem_of_find?_eq_some hf)
  | variantU vid =>
    cases hf : db.variants.find? (fun v => v.id == vid) with
    | none => simp [stockOfU, hf]
    | some v => simpa [stockOfU, hf] using h.2 v (List.mem_of_find?_eq_some hf)

/-! ## Atomic conditional decrement

`prismaClient.productVariant.update({ where: { id, stock: { gte: quantity } },
data: { stock: { decrement: quantity } } })` from `reserveStock`: a single
conditional check-and-decrement.  When the `where` clause matches no row
(missing id or insufficient stock) Prisma throws `P2025`; we model that as
`Except.error`. -/

def p2025 : String := "An operation failed because it depends on one or more records that were required but not found."

def condDecVariant (db : Db) (vid : String) (q : Int) : Except String (Db × Variant) :=
  match db.variants.find? (fun v => v.id == vid) with
  | none => .error p2025
  | some v =>
    if q ≤ v.stock then
      .ok ({ db with variants := updateFirst (fun w => w.id == vid) (fun w => { w with stock := w.stock - q }) db.variants },
           { v with stock := v.stock - q })
    else .error p2025

def condDecProduct (db : Db) (pid : String) (q : Int) : Except String (Db × Product) :=
  match db.products.find? (fun p => p.id == pid) with
  | none => .error p2025
  | some p =>
    if q ≤ p.stockQuantity then
      .ok ({ db with products := updateFirst (fun w => w.id == pid) (fun w => { w with stockQuantity := w.stockQuantity - q }) db.products },
           { p with stockQuantity := p.stockQuantity - q })
    else .error p2025

theorem condDecVariant_ok {db : Db} {vid : String} {q : Int} {db' : Db} {v' : Variant}
    (h : condDecVariant db vid q = .ok (db', v')) :
    ∃ v, db.variants.find? (fun w => w.id == vid) = some v ∧ q ≤ v.stock ∧
      db' = { db with variants := updateFirst (fun w => w.id == vid) (fun w => { w with stock := w.stock - q }) db.variants } ∧
      v' = { v with stock := v.stock - q } := by
  unfold condDecVariant at h
  split at h
  · exact absurd h (by simp)
  · rename_i v hf
    split at h
    · rename_i hq
      injection h with h'
      exact ⟨v, hf, hq, (congrArg Prod.fst h').symm, (congrArg Prod.snd h').symm⟩
    · exact absurd h (by simp)

theorem condDecProduct_ok {db : Db} {pid : String} {q : Int} {db' : Db} {p' : Product}
    (h : condDecProduct db pid q = .ok (db', p')) :
    ∃ p, db.products.find? (fun w => w.id == pid) = some p ∧ q ≤ p.stockQuantity ∧
      db' = { db with products := updateFirst (fun w => w.id == pid) (fun w => { w with stockQuantity := w.stockQuantity - q }) db.products } ∧
      p' = { p with stockQuantity := p.stockQuantity - q } := by
  unfold condDecProduct at h
  split at h
  · exact absurd h (by simp)
  · rename_i p hf
    split at h
    · rename_i hq
      injection h with h'
      exact ⟨p, hf, hq, (congrArg Prod.fst h').symm, (congrArg Prod.snd h').symm⟩
    · exact absurd h (by simp)

theorem condDecVariant_stock {db : Db} {vid : String} {q : Int} {db' : Db} {v' : Variant}
    (h : condDecVariant db vid q = .ok (db', v')) (u : UnitRef) :
    stockOfU db' u = stockOfU db u - (if u = .variantU vid then q else 0) ∧
    q ≤ stockOfU db (.variantU vid) := by
  obtain ⟨v, hf, hq, hdb, _⟩ := condDecVariant_ok h
  have hstock : stockOfU db (.variantU vid) = v.stock := by simp [stockOfU, hf]
  refine ⟨?_, by rw [hstock]; exact hq⟩
  cases u with
  | productU pid => simp [stockOfU, hdb]
  | variantU vid' =>
    by_cases hvv : vid' = vid
    · rw [hvv]
      have hfu := find?_updateFirst_self (p := fun w : Variant => w.id == vid)
        (f := fun w => { w with stock := w.stock - q }) (fun x hx => hx) db.variants
      simp [stockOfU, hdb, hfu, hf]
    · have hfu := find?_updateFirst_of_ne (p := fun w : Variant => w.id == vid)
        (q := fun w : Variant => w.id == vid')
        (f := fun w => { w with stock := w.stock - q })
        (fun x => rfl)
        (fun x hx => by
          have hxv : x.id = vid := eq_of_beq hx
          simp [hxv, Ne.symm hvv]) db.variants
      simp [stockOfU, hdb, hfu, hvv]

theorem condDecProduct_stock {db : Db} {pid : String} {q : Int} {db' : Db} {p' : Product}
    (h : condDecProduct db pid q = .ok (db', p')) (u : UnitRef) :
    stockOfU db' u = stockOfU db u - (if u = .productU pid then q else 0) ∧
    q ≤ stockOfU db (.productU pid) := by
  obtain ⟨p, hf, hq, hdb, _⟩ := condDecProduct_ok h
  have hstock : stockOfU db (.productU pid) = p.stockQuantity := by simp [stockOfU, hf]
  refine ⟨?_, by rw [hstock]; exact hq⟩
  cases u with
  | variantU vid => simp [stockOfU, hdb]
  | productU pid' =>
    by_cases hvv : pid' = pid
    · rw [hvv]
      have hfu := find?_updateFirst_self (p := fun w : Product => w.id == pid)
        (f := fun w => { w with stockQuantity := w.stockQuantity - q }) (fun x hx => hx) db.products
      simp [stockOfU, hdb, hfu, hf]
    · have hfu := find?_updateFirst_of_ne (p := fun w : Product => w.id == pid)
        (q := fun w : Product => w.id == pid')
        (f := fun w => { w with stockQuantity := w.stockQuantity - q })
        (fun x => rfl)
        (fun x hx => by
          have hxp : x.id = pid := eq_of_beq hx
          simp [hxp, Ne.symm hvv]) db.products
      simp [stockOfU, hdb, hfu, hvv]

theorem condDecVariant_nonneg {db : Db} {vid : String} {q : Int} {db' : Db} {v' : Variant}
    (h : condDecVariant db vid q = .ok (db', v')) (hnn : dbNonneg db) : dbNonneg db' := by
  obtain ⟨v, hf, hq, hdb, _⟩ := condDecVariant_ok h
  subst hdb
  refine ⟨hnn.1, ?_⟩
  intro w hw
  rcases updateFirst_mem hw with hmem | ⟨x, hx, hwx⟩
  · exact hnn.2 w hmem
  · rw [hf] at hx
    injection hx with hx
    subst hx; subst hwx
    simpa using hq

theorem condDecProduct_nonneg {db : Db} {pid : String} {q : Int} {db' : Db} {p' : Product}
    (h : condDecProduct db pid q = .ok (db', p')) (hnn : dbNonneg db) : dbNonneg db' := by
  obtain ⟨p, hf, hq, hdb, _⟩ := condDecProduct_ok h
  subst hdb
  refine ⟨?_, hnn.2⟩
  intro w hw
  rcases updateFirst_mem hw with hmem | ⟨x, hx, hwx⟩
  · exact hnn.1 w hmem
  · rw [hf] at hx
    injection hx with hx
    subst hx; subst hwx
    simpa using hq

theorem condDecVariant_nodup {db : Db} {vid : String} {q : Int} {db' : Db} {v' : Variant}
    (h : condDecVariant db vid q = .ok (db', v')) (hnd : dbIdsNodup db) : dbIdsNodup db' := by
  obtain ⟨v, hf, hq, hdb, _⟩ := condDecVariant_ok h
  subst hdb
  refine ⟨hnd.1, ?_⟩
  have hmap := map_updateFirst (p := fun w : Variant => w.id == vid)
    (f := fun w => { w with stock := w.stock - q }) (fun w : Variant => w.id) (fun x => rfl) db.variants
  simpa [hmap] using hnd.2

theorem condDecProduct_nodup {db : Db} {pid : String} {q : Int} {db' : Db} {p' : Product}
    (h : condDecProduct db pid q = .ok (db', p')) (hnd : dbIdsNodup db) : dbIdsNodup db' := by
  obtain ⟨p, hf, hq, hdb, _⟩ := condDecProduct_ok h
  subst hdb
  refine ⟨?_, hnd.2⟩
  have hmap := map_updateFirst (p := fun w : Product => w.id == pid)
    (f := fun w => { w with stockQuantity := w.stockQuantity - q }) (fun w : Product => w.id) (fun x => rfl) db.products
  simpa [hmap] using hnd.1

/-- Price and join data (everything except the `stock` column) of a variant
row, as read by `reserveStock`'s lookups. -/
def variantInfo (db : Db) (vid : String) : Option (Option ℚ × String) :=
  (db.variants.find? (fun v => v.id == vid)).map (fun v => (v.price, v.productId))

/-- Price and name of a product row, as read by `reserveStock`'s lookups. -/
def productInfo (db : Db) (pid : String) : Option (ℚ × String) :=
  (db.products.find? (fun p => p.id == pid)).map (fun p => (p.price, p.name))

theorem condDecVariant_info {db : Db} {vid : String} {q : Int} {db' : Db} {v' : Variant}
    (h : condDecVariant db vid q = .ok (db', v')) :
    (∀ vid', variantInfo db' vid' = variantInfo db vid') ∧ db'.products = db.products := by
  obtain ⟨v, hf, hq, hdb, _⟩ := condDecVariant_ok h
  subst hdb
  refine ⟨fun vid' => ?_, rfl⟩
  by_cases hvv : vid' = vid
  · rw [hvv]
    have hfu := find?_updateFirst_self (p := fun w : Variant => w.id == vid)
      (f := fun w => { w with stock := w.stock - q }) (fun x hx => hx) db.variants
    simp only [variantInfo, hfu]
    cases db.variants.find? (fun w => w.id == vid) <;> simp
  · have hfu := find?_updateFirst_of_ne (p := fun w : Variant => w.id == vid)
      (q := fun w : Variant => w.id == vid')
      (f := fun w => { w with stock := w.stock - q })
      (fun x => rfl)
      (fun x hx => by
        have hxv : x.id = vid := eq_of_beq hx
        simp [hxv, Ne.symm hvv]) db.variants
    simp [variantInfo, hfu]

theorem condDecProduct_info {db : Db} {pid : String} {q : Int} {db' : Db} {p' : Product}
    (h : condDecProduct db pid q = .ok (db', p')) :
    (∀ pid', productInfo db' pid' = productInfo db pid') ∧ db'.variants = db.variants := by
  obtain ⟨p, hf, hq, hdb, _⟩ := condDecProduct_ok h
  subst hdb
  refine ⟨fun pid' => ?_, rfl⟩
  by_cases hvv : pid' = pid
  · rw [hvv]
    have hfu := find?_updateFirst_self (p := fun w : Product => w.id == pid)
      (f := fun w => { w with stockQuantity := w.stockQuantity - q }) (fun x hx => hx) db.products
    simp only [productInfo, hfu]
    cases db.products.find? (fun w => w.id == pid) <;> simp
  · have hfu := find?_updateFirst_of_ne (p := fun w : Product => w.id == pid)
      (q := fun w : Product => w.id == pid')
      (f := fun w => { w with stockQuantity := w.stockQuantity - q })
      (fun x => rfl)
      (fun x hx => by
        have hxp : x.id = pid := eq_of_beq hx
        simp [hxp, Ne.symm hvv]) db.products
    simp [productInfo, hfu]

/-! ## `reserveStock` (stock service)

Embedding of `reserveStock` from the stock-service portion of
`src/src/services/cache.service.ts` (lines 312-406).  The per-item loop becomes
`reserveStockGo`; the surrounding `try/catch` becomes the wrapper
`reserveStock`, which converts a thrown error into a
`success: false` result with a `Stock reservation failed: ...` message.
The source's `if (!updatedVariant)` / `if (!updatedProduct)` branches are dead
code under Prisma's actual semantics (a non-matching `update` throws `P2025`
instead of returning `null`), so the insufficient-stock case surfaces through
the catch wrapper. -/

structure StockItem where
  productId : String
  variantId : Option String
  quantity : Int
deriving DecidableEq

structure ReservedItem where
  productId : String
  variantId : Option String
  quantity : Int
  price : ℚ
  productName : String
deriving DecidableEq

structure StockReservationResult where
  success : Bool
  message : Option String
  reservedItems : Option (List ReservedItem)
deriving DecidableEq

def StockItem.unit (i : StockItem) : UnitRef :=
  match i.variantId with
  | some vid => .variantU vid
  | none => .productU i.productId

def ReservedItem.unit (r : ReservedItem) : UnitRef :=
  match r.variantId with
  | some vid => .variantU vid
  | none => .productU r.productId

def reserveStockGo : List StockItem → Db → List ReservedItem → Db × Except String StockReservationResult
  | [], db, acc => (db, .ok { success := true, message := none, reservedItems := some acc.reverse })
  | i :: rest, db, acc =>
    match i.variantId with
    | some vid =>
      match db.variants.find? (fun v => v.id == vid) with
      | none => (db, .ok { success := false, message := some ("Product variant not found: " ++ vid), reservedItems := none })
      | some v =>
        -- the `include: { product: { select: { name: true } } }` join; a broken
        -- relation makes the JS `variant.product.name` access throw
        match db.products.find? (fun p => p.id == v.productId) with
        | none => (db, .error "Cannot read properties of undefined")
        | some prod =>
          match condDecVariant db vid i.quantity with
          | .error e => (db, .error e)
          | .ok (db', _) =>
            reserveStockGo rest db'
              ({ productId := i.productId, variantId := i.variantId, quantity := i.quantity,
                 price := v.price.getD 0, productName := prod.name } :: acc)
    | none =>
      match db.products.find? (fun p => p.id == i.productId) with
      | none => (db, .ok { success := false, message := some ("Product not found: " ++ i.productId), reservedItems := none })
      | some prod =>
        match condDecProduct db i.productId i.quantity with
        | .error e => (db, .error e)
        | .ok (db', _) =>
          reserveStockGo rest db'
            ({ productId := i.productId, variantId := none, quantity := i.quantity,
               price := prod.price, productName := prod.name } :: acc)

def reserveStock (items : List StockItem) (db : Db) : Db × StockReservationResult :=
  match reserveStockGo items db [] with
  | (db', .ok r) => (db', r)
  | (db', .error e) => (db', { success := false, message := some ("Stock reservation failed: " ++ e), reservedItems := none })

/-- The result row `reserveStock` builds for one item: the item's fields plus
the price in effect and the product name at the time of the lookup. -/
def annotate (db : Db) (i : StockItem) : ReservedItem :=
  match i.variantId with
  | some vid =>
    match db.variants.find? (fun v => v.id == vid) with
    | some v =>
      { productId := i.productId, variantId := i.variantId, quantity := i.quantity,
        price := v.price.getD 0,
        productName := (((db.products.find? (fun p => p.id == v.productId))).map (fun p => p.name)).getD "" }
    | none =>
      { productId := i.productId, variantId := i.variantId, quantity := i.quantity, price := 0, productName := "" }
  | none =>
    match db.products.find? (fun p => p.id == i.productId) with
    | some p =>
      { productId := i.productId, variantId := none, quantity := i.quantity, price := p.price, productName := p.name }
    | none =>
      { productId := i.productId, variantId := none, quantity := i.quantity, price := 0, productName := "" }

/-! Quantity accounting per stock unit. -/

def qtyU (l : List StockItem) (u : UnitRef) : Int :=
  (l.map (fun i => if i.unit = u then i.quantity else 0)).sum

def rqtyU (l : List ReservedItem) (u : UnitRef) : Int :=
  (l.map (fun r => if r.unit = u then r.quantity else 0)).sum

theorem rqtyU_reverse (l : List ReservedItem) (u : UnitRef) : rqtyU l.reverse u = rqtyU l u := by
  unfold rqtyU
  rw [List.map_reverse, List.sum_reverse]

theorem rqtyU_nonneg {l : List ReservedItem} (h : ∀ r ∈ l, 0 ≤ r.quantity) (u : UnitRef) :
    0 ≤ rqtyU l u := by
  unfold rqtyU
  induction l with
  | nil => simp
  | cons r rest ih =>
    simp only [List.map_cons, List.sum_cons]
    have h1 : 0 ≤ (if r.unit = u then r.quantity else 0) := by
      split
      · exact h r (List.mem_cons_self _ _)
      · exact le_refl 0
    have h2 := ih (fun x hx => h x (List.mem_cons_of_mem _ hx))
    omega

/-- Reserved quantity at unit `u` reported by an `Except`-level loop result. -/
def goSold (ex : Except String StockReservationResult) (u : UnitRef) : Int :=
  match ex with
  | .ok r => if r.success then rqtyU (r.reservedItems.getD []) u else 0
  | .error _ => 0

/-- Reserved quantity at unit `u` reported by a `reserveStock` result. -/
def soldOf (r : StockReservationResult) (u : UnitRef) : Int :=
  if r.success then rqtyU (r.reservedItems.getD []) u else 0

theorem reserveStockGo_bound (u : UnitRef) :
    ∀ (items : List StockItem) (db : Db) (acc : List ReservedItem),
      dbNonneg db → (∀ i ∈ items, 0 ≤ i.quantity) → (∀ r ∈ acc, 0 ≤ r.quantity) →
      dbNonneg (reserveStockGo items db acc).1 ∧
      stockOfU (reserveStockGo items db acc).1 u + goSold (reserveStockGo items db acc).2 u - rqtyU acc u
        ≤ stockOfU db u := by
  intro items
  induction items with
  | nil =>
    intro db acc hnn _ hacc
    refine ⟨hnn, ?_⟩
    simp [reserveStockGo, goSold, rqtyU_reverse]
  | cons i rest ih =>
    intro db acc hnn hq hacc
    have hq0 : 0 ≤ i.quantity := hq i (List.mem_cons_self _ _)
    have hqrest : ∀ j ∈ rest, 0 ≤ j.quantity := fun j hj => hq j (List.mem_cons_of_mem _ hj)
    have haccn : 0 ≤ rqtyU acc u := rqtyU_nonneg hacc u
    cases hvi : i.variantId with
    | some vid =>
      cases hfv : db.variants.find? (fun v => v.id == vid) with
      | none =>
        refine ⟨by simp [reserveStockGo, hvi, hfv]; exact hnn, ?_⟩
        simp [reserveStockGo, hvi, hfv, goSold]
        omega
      | some v =>
        cases hfp : db.products.find? (fun p => p.id == v.productId) with
        | none =>
          refine ⟨by simp [reserveStockGo, hvi, hfv, hfp]; exact hnn, ?_⟩
          simp [reserveStockGo, hvi, hfv, hfp, goSold]
          omega
        | some prod =>
          cases hcd : condDecVariant db vid i.quantity with
          | error e =>
            refine ⟨by simp [reserveStockGo, hvi, hfv, hfp, hcd]; exact hnn, ?_⟩
            simp [reserveStockGo, hvi, hfv, hfp, hcd, goSold]
            omega
          | ok pr =>
            obtain ⟨db1, v1⟩ := pr
            have hnn1 := condDecVariant_nonneg hcd hnn
            have hst := condDecVariant_stock hcd u
            have hgo : reserveStockGo (i :: rest) db acc =
                reserveStockGo rest db1
                  ({ productId := i.productId, variantId := i.variantId, quantity := i.quantity,
                     price := v.price.getD 0, productName := prod.name } :: acc) := by
              conv_lhs => rw [reserveStockGo]
              rw [hvi]
              simp only [hfv, hfp, hcd, hvi]
            set ri : ReservedItem :=
              { productId := i.productId, variantId := i.variantId, quantity := i.quantity,
                price := v.price.getD 0, productName := prod.name } with hri
            have hacc1 : ∀ r ∈ ri :: acc, 0 ≤ r.quantity := by
              intro r hr
              rcases List.mem_cons.mp hr with h | h
              · rw [h]; exact hq0
              · exact hacc r h
            obtain ⟨hnnf, hbound⟩ := ih db1 (ri :: acc) hnn1 hqrest hacc1
            rw [hgo]
            refine ⟨hnnf, ?_⟩
            have hru : rqtyU (ri :: acc) u = (if u = .variantU vid then i.quantity else 0) + rqtyU acc u := by
              unfold rqtyU
              simp only [List.map_cons, List.sum_cons]
              have hun : ri.unit = .variantU vid := by simp [hri, ReservedItem.unit, hvi]
              by_cases hu : u = .variantU vid
              · rw [if_pos hu, if_pos (by rw [hun, hu])]
              · rw [if_neg hu, if_neg (by rw [hun]; exact fun hc => hu hc.symm)]
            rw [hru] at hbound
            have hdb1 := hst.1
            omega
    | none =>
      cases hfp : db.products.find? (fun p => p.id == i.productId) with
      | none =>
        refine ⟨by simp [reserveStockGo, hvi, hfp]; exact hnn, ?_⟩
        simp [reserveStockGo, hvi, hfp, goSold]
        omega
      | some prod =>
        cases hcd : condDecProduct db i.productId i.quantity with
        | error e =>
          refine ⟨by simp [reserveStockGo, hvi, hfp, hcd]; exact hnn, ?_⟩
          simp [reserveStockGo, hvi, hfp, hcd, goSold]
          omega
        | ok pr =>
          obtain ⟨db1, p1⟩ := pr
          have hnn1 := condDecProduct_nonneg hcd hnn
          have hst := condDecProduct_stock hcd u
          have hgo : reserveStockGo (i :: rest) db acc =
              reserveStockGo rest db1
                ({ productId := i.productId, variantId := none, quantity := i.quantity,
                   price := prod.price, productName := prod.name } :: acc) := by
            conv_lhs => rw [reserveStockGo]
            rw [hvi]
            simp only [hfp, hcd]
          set ri : ReservedItem :=
            { productId := i.productId, variantId := none, quantity := i.quantity,
              price := prod.price, productName := prod.name } with hri
          have hacc1 : ∀ r ∈ ri :: acc, 0 ≤ r.quantity := by
            intro r hr
            rcases List.mem_cons.mp hr with h | h
            · rw [h]; exact hq0
            · exact hacc r h
          obtain ⟨hnnf, hbound⟩ := ih db1 (ri :: acc) hnn1 hqrest hacc1
          rw [hgo]
          refine ⟨hnnf, ?_⟩
          have hru : rqtyU (ri :: acc) u = (if u = .productU i.productId then i.quantity else 0) + rqtyU acc u := by
            unfold rqtyU
            simp only [List.map_cons, List.sum_cons]
            have hun : ri.unit = .productU i.productId := by simp [hri, ReservedItem.unit]
            by_cases hu : u = .productU i.productId
            · rw [if_pos hu, if_pos (by rw [hun, hu])]
            · rw [if_neg hu, if_neg (by rw [hun]; exact fun hc => hu hc.symm)]
          rw [hru] at hbound
          have hdb1 := hst.1
          omega

theorem reserveStockGo_nodup :
    ∀ (items : List StockItem) (db : Db) (acc : List ReservedItem),
      dbIdsNodup db → dbIdsNodup (reserveStockGo items db acc).1 := by
  intro items
  induction items with
  | nil => intro db acc hnd; simpa [reserveStockGo] using hnd
  | cons i rest ih =>
    intro db acc hnd
    cases hvi : i.variantId with
    | some vid =>
      cases hfv : db.variants.find? (fun v => v.id == vid) with
      | none => simpa [reserveStockGo, hvi, hfv] using hnd
      | some v =>
        cases hfp : db.products.find? (fun p => p.id == v.productId) with
        | none => simpa [reserveStockGo, hvi, hfv, hfp] using hnd
        | some prod =>
          cases hcd : condDecVariant db vid i.quantity with
          | error e => simpa [reserveStockGo, hvi, hfv, hfp, hcd] using hnd
          | ok pr =>
            obtain ⟨db1, v1⟩ := pr
            have hgo : reserveStockGo (i :: rest) db acc =
                reserveStockGo rest db1
                  ({ productId := i.productId, variantId := i.variantId, quantity := i.quantity,
                     price := v.price.getD 0, productName := prod.name } :: acc) := by
              conv_lhs => rw [reserveStockGo]
              rw [hvi]
              simp only [hfv, hfp, hcd, hvi]
            rw [hgo]
            exact ih db1 _ (condDecVariant_nodup hcd hnd)
    | none =>
      cases hfp : db.products.find? (fun p => p.id == i.productId) with
      | none => simpa [reserveStockGo, hvi, hfp] using hnd
      | some prod =>
        cases hcd : condDecProduct db i.productId i.quantity with
        | error e => simpa [reserveStockGo, hvi, hfp, hcd] using hnd
        | ok pr =>
          obtain ⟨db1, p1⟩ := pr
          have hgo : reserveStockGo (i :: rest) db acc =
              reserveStockGo rest db1
                ({ productId := i.productId, variantId := none, quantity := i.quantity,
                   price := prod.price, productName := prod.name } :: acc) := by
            conv_lhs => rw [reserveStockGo]
            rw [hvi]
            simp only [hfp, hcd]
          rw [hgo]
          exact ih db1 _ (condDecProduct_nodup hcd hnd)

theorem annotate_condDecVariant {db : Db} {vid : String} {q : Int} {db' : Db} {v' : Variant}
    (h : condDecVariant db vid q = .ok (db', v')) (j : StockItem) :
    annotate db' j = annotate db j := by
  obtain ⟨hinfo, hprod⟩ := condDecVariant_info h
  cases hj : j.variantId with
  | some w =>
    simp only [annotate, hj]
    have hw := hinfo w
    unfold variantInfo at hw
    cases hf1 : db'.variants.find? (fun v => v.id == w) with
    | none =>
      cases hf2 : db.variants.find? (fun v => v.id == w) with
      | none => simp [hf1, hf2]
      | some v2 => rw [hf1, hf2] at hw; simp at hw
    | some v1 =>
      cases hf2 : db.variants.find? (fun v => v.id == w) with
      | none => rw [hf1, hf2] at hw; simp at hw
      | some v2 =>
        rw [hf1, hf2] at hw
        simp only [Option.map, Option.some.injEq, Prod.mk.injEq] at hw
        simp [hf1, hf2, hw.1, hw.2, hprod]
  | none =>
    simp only [annotate, hj]
    simp [hprod]

theorem annotate_condDecProduct {db : Db} {pid : String} {q : Int} {db' : Db} {p' : Product}
    (h : condDecProduct db pid q = .ok (db', p')) (j : StockItem) :
    annotate db' j = annotate db j := by
  obtain ⟨hinfo, hvar⟩ := condDecProduct_info h
  cases hj : j.variantId with
  | some w =>
    simp only [annotate, hj, hvar]
    cases hf : db.variants.find? (fun v => v.id == w) with
    | none => simp [hf]
    | some v =>
      have hw := hinfo v.productId
      unfold productInfo at hw
      cases hf1 : db'.products.find? (fun p => p.id == v.productId) with
      | none =>
        cases hf2 : db.products.find? (fun p => p.id == v.productId) with
        | none => simp [hf, hf1, hf2]
        | some p2 => rw [hf1, hf2] at hw; simp at hw
      | some p1 =>
        cases hf2 : db.products.find? (fun p => p.id == v.productId) with
        | none => rw [hf1, hf2] at hw; simp at hw
        | some p2 =>
          rw [hf1, hf2] at hw
          simp only [Option.map, Option.some.injEq, Prod.mk.injEq] at hw
          simp [hf, hf1, hf2, hw.2]
  | none =>
    simp only [annotate, hj]
    have hw := hinfo j.productId
    unfold productInfo at hw
    cases hf1 : db'.products.find? (fun p => p.id == j.productId) with
    | none =>
      cases hf2 : db.products.find? (fun p => p.id == j.productId) with
      | none => simp [hf1, hf2]
      | some p2 => rw [hf1, hf2] at hw; simp at hw
    | some p1 =>
      cases hf2 : db.products.find? (fun p => p.id == j.productId) with
      | none => rw [hf1, hf2] at hw; simp at hw
      | some p2 =>
        rw [hf1, hf2] at hw
        simp only [Option.map, Option.some.injEq, Prod.mk.injEq] at hw
        simp [hf1, hf2, hw.1, hw.2]

/-- On success the reserved items are exactly the input items annotated with
the price and product name read from the store; prices and names are unchanged
by the loop's stock decrements, so the initial store is authoritative. -/
theorem reserveStockGo_annotate :
    ∀ (items : List StockItem) (db : Db) (acc : List ReservedItem) {db' : Db} {r : StockReservationResult},
      reserveStockGo items db acc = (db', .ok r) → r.success = true →
      r.reservedItems = some (acc.reverse ++ items.map (annotate db)) ∧ r.message = none := by
  intro items
  induction items with
  | nil =>
    intro db acc db' r h hs
    unfold reserveStockGo at h
    injection h with h1 h2
    injection h2 with h2
    rw [← h2]
    simp
  | cons i rest ih =>
    intro db acc db' r h hs
    cases hvi : i.variantId with
    | some vid =>
      cases hfv : db.variants.find? (fun v => v.id == vid) with
      | none =>
        rw [reserveStockGo, hvi] at h
        simp only [hfv] at h
        injection h with h1 h2
        injection h2 with h2
        rw [← h2] at hs
        simp at hs
      | some v =>
        cases hfp : db.products.find? (fun p => p.id == v.productId) with
        | none =>
          rw [reserveStockGo, hvi] at h
          simp only [hfv, hfp] at h
          injection h with h1 h2
          exact absurd h2 (by simp)
        | some prod =>
          cases hcd : condDecVariant db vid i.quantity with
          | error e =>
            rw [reserveStockGo, hvi] at h
            simp only [hfv, hfp, hcd] at h
            injection h with h1 h2
            exact absurd h2 (by simp)
          | ok pr =>
            obtain ⟨db1, v1⟩ := pr
            rw [reserveStockGo, hvi] at h
            simp only [hfv, hfp, hcd, hvi] at h
            obtain ⟨hres, hmsg⟩ := ih db1 _ h hs
            constructor
            · rw [hres]
              have hanno : annotate db i =
                  { productId := i.productId, variantId := i.variantId, quantity := i.quantity,
                    price := v.price.getD 0, productName := prod.name } := by
                unfold annotate
                rw [hvi]
                simp [hfv, hfp]
              have hrest : rest.map (annotate db1) = rest.map (annotate db) :=
                List.map_congr_left (fun j _ => annotate_condDecVariant hcd j)
              rw [hrest]
              simp [hanno, hvi]
            · exact hmsg
    | none =>
      cases hfp : db.products.find? (fun p => p.id == i.productId) with
      | none =>
        rw [reserveStockGo, hvi] at h
        simp only [hfp] at h
        injection h with h1 h2
        injection h2 with h2
        rw [← h2] at hs
        simp at hs
      | some prod =>
        cases hcd : condDecProduct db i.productId i.quantity with
        | error e =>
          rw [reserveStockGo, hvi] at h
          simp only [hfp, hcd] at h
          injection h with h1 h2
          exact absurd h2 (by simp)
        | ok pr =>
          obtain ⟨db1, p1⟩ := pr
          rw [reserveStockGo, hvi] at h
          simp only [hfp, hcd] at h
          obtain ⟨hres, hmsg⟩ := ih db1 _ h hs
          constructor
          · rw [hres]
            have hanno : annotate db i =
                { productId := i.productId, variantId := none, quantity := i.quantity,
                  price := prod.price, productName := prod.name } := by
              unfold annotate
              rw [hvi]
              simp [hfp]
            have hrest : rest.map (annotate db1) = rest.map (annotate db) :=
              List.map_congr_left (fun j _ => annotate_condDecProduct hcd j)
            rw [hrest]
            simp [hanno]
          · exact hmsg

theorem reserveStockGo_false :
    ∀ (items : List StockItem) (db : Db) (acc : List ReservedItem) {db' : Db} {r : StockReservationResult},
      reserveStockGo items db acc = (db', .ok r) → r.success = false →
      ∃ m, r.message = some m := by
  intro items
  induction items with
  | nil =>
    intro db acc db' r h hs
    unfold reserveStockGo at h
    injection h with h1 h2
    injection h2 with h2
    rw [← h2] at hs
    simp at hs
  | cons i rest ih =>
    intro db acc db' r h hs
    cases hvi : i.variantId with
    | some vid =>
      cases hfv : db.variants.find? (fun v => v.id == vid) with
      | none =>
        rw [reserveStockGo, hvi] at h
        simp only [hfv] at h
        injection h with h1 h2
        injection h2 with h2
        rw [← h2]
        exact ⟨_, rfl⟩
      | some v =>
        cases hfp : db.products.find? (fun p => p.id == v.productId) with
        | none =>
          rw [reserveStockGo, hvi] at h
          simp only [hfv, hfp] at h
          injection h with h1 h2
          exact absurd h2 (by simp)
        | some prod =>
          cases hcd : condDecVariant db vid i.quantity with
          | error e =>
            rw [reserveStockGo, hvi] at h
            simp only [hfv, hfp, hcd] at h
            injection h with h1 h2
            exact absurd h2 (by simp)
          | ok pr =>
            obtain ⟨db1, v1⟩ := pr
            rw [reserveStockGo, hvi] at h
            simp only [hfv, hfp, hcd, hvi] at h
            exact ih db1 _ h hs
    | none =>
      cases hfp : db.products.find? (fun p => p.id == i.productId) with
      | none =>
        rw [reserveStockGo, hvi] at h
        simp only [hfp] at h
        injection h with h1 h2
        injection h2 with h2
        rw [← h2]
        exact ⟨_, rfl⟩
      | some prod =>
        cases hcd : condDecProduct db i.productId i.quantity with
        | error e =>
          rw [reserveStockGo, hvi] at h
          simp only [hfp, hcd] at h
          injection h with h1 h2
          exact absurd h2 (by simp)
        | ok pr =>
          obtain ⟨db1, p1⟩ := pr
          rw [reserveStockGo, hvi] at h
          simp only [hfp, hcd] at h
          exact ih db1 _ h hs

/-! Packaged facts about `reserveStock`. -/

theorem reserveStock_bound {items : List StockItem} {db : Db} (u : UnitRef)
    (hnn : dbNonneg db) (hq : ∀ i ∈ items, 0 ≤ i.quantity) :
    dbNonneg (reserveStock items db).1 ∧
    stockOfU (reserveStock items db).1 u + soldOf (reserveStock items db).2 u ≤ stockOfU db u := by
  have hmain := reserveStockGo_bound u items db [] hnn hq (by intro r hr; simp at hr)
  have hz : rqtyU ([] : List ReservedItem) u = 0 := by simp [rqtyU]
  cases hgo : reserveStockGo items db [] with
  | mk db' ex =>
    rw [hgo, hz] at hmain
    cases ex with
    | ok r =>
      have hrw : reserveStock items db = (db', r) := by unfold reserveStock; rw [hgo]
      rw [hrw]
      refine ⟨hmain.1, ?_⟩
      have hb := hmain.2
      simp only [goSold] at hb
      simp only [soldOf]
      omega
    | error e =>
      have hrw : reserveStock items db =
          (db', { success := false, message := some ("Stock reservation failed: " ++ e), reservedItems := none }) := by
        unfold reserveStock; rw [hgo]
      rw [hrw]
      refine ⟨hmain.1, ?_⟩
      have hb := hmain.2
      simp only [goSold] at hb
      simp only [soldOf, Bool.false_eq_true, if_false]
      omega

theorem reserveStock_nodup {items : List StockItem} {db : Db} (hnd : dbIdsNodup db) :
    dbIdsNodup (reserveStock items db).1 := by
  have := reserveStockGo_nodup items db [] hnd
  unfold reserveStock
  cases hgo : reserveStockGo items db [] with
  | mk db' ex =>
    rw [hgo] at this
    cases ex <;> simpa using this

theorem reserveStock_success_annotate {items : List StockItem} {db : Db}
    (hs : (reserveStock items db).2.success = true) :
    (reserveStock items db).2.reservedItems = some (items.map (annotate db)) ∧
    (reserveStock items db).2.message = none := by
  unfold reserveStock at hs ⊢
  cases hgo : reserveStockGo items db [] with
  | mk db' ex =>
    rw [hgo] at hs
    cases ex with
    | ok r =>
      have hs' : r.success = true := hs
      have hres := reserveStockGo_annotate items db [] hgo hs'
      exact ⟨by simpa using hres.1, hres.2⟩
    | error e => simp at hs

theorem reserveStock_failure_message {items : List StockItem} {db : Db}
    (hs : (reserveStock items db).2.success = false) :
    ∃ m, (reserveStock items db).2.message = some m := by
  unfold reserveStock at hs ⊢
  cases hgo : reserveStockGo items db [] with
  | mk db' ex =>
    rw [hgo] at hs
    cases ex with
    | ok r =>
      have hs' : r.success = false := hs
      exact reserveStockGo_false items db [] hgo hs'
    | error e =>
      exact ⟨_, rfl⟩

/-! ## Order domain model

Rows of the remaining tables touched by the order controllers, the ephemeral
Redis `temp_order:*` records, and the environment of external collaborators. -/

inductive OrderStatus where
  | PENDING | CONFIRMED | PROCESSING | SHIPPED | OUT_FOR_DELIVERY
  | DELIVERED | CANCELLED | RETURNED | REFUNDED
deriving DecidableEq

inductive PaymentStatus where
  | PENDING | PAID | FAILED | REFUNDED | PARTIAL_REFUND
deriving DecidableEq

inductive DiscountType where
  | PERCENTAGE | FIXED_AMOUNT | FREE_SHIPPING
deriving DecidableEq

structure OrderRow where
  id : String
  orderNumber : String
  userId : String
  status : OrderStatus
  paymentStatus : PaymentStatus
  paymentMethod : String
  paymentId : Option String
  shippingAddressId : String
  subtotal : ℚ
  discountAmount : ℚ
  totalAmount : ℚ
  couponId : Option String
  trackingNumber : String
deriving DecidableEq

structure OrderItemRow where
  orderId : String
  productId : String
  variantId : Option String
  quantity : Int
  price : ℚ
deriving DecidableEq

/-- An `OrderStatusHistory` row; the list order in `AppState.statusHistory`
models `createdAt` order (append-only log). -/
structure HistoryEntry where
  orderId : String
  status : OrderStatus
  note : String
deriving DecidableEq

structure Coupon where
  id : String
  code : String
  dtype : DiscountType
  value : ℚ
  maxDiscount : Option ℚ
  usageCount : Int
  isActive : Bool
  validFrom : Int
  validUntil : Int
deriving DecidableEq

structure CartRow where
  userId : String
  subtotal : ℚ
  total : ℚ
deriving DecidableEq

structure CartItemRow where
  userId : String
  productId : String
  quantity : Int
deriving DecidableEq

structure UserRow where
  id : String
  email : String
  phone : Option String
deriving DecidableEq

structure AddressRow where
  id : String
  userId : String
deriving DecidableEq

/-- A priced line item of the client cart snapshot
(`ICreateRazorpayOrderRequest.cartData.items`). -/
structure PricedCartItem where
  productId : String
  variantId : Option String
  quantity : Int
  price : ℚ
deriving DecidableEq

/-- The client cart snapshot with declared totals
(`ICreateRazorpayOrderRequest.cartData` / `ITemporaryOrderData.cartData`). -/
structure PricedCartData where
  items : List PricedCartItem
  subtotal : ℚ
  tax : ℚ
  discount : ℚ
  total : ℚ
  couponCode : Option String
  shippingAddressId : String
deriving DecidableEq

/-- The Redis `temp_order:<razorpayOrderId>` record (`ITemporaryOrderData`);
JSON encoding/decoding is modelled as the identity. -/
structure TempOrderData where
  razorpayOrderId : String
  cartData : PricedCartData
  userId : String
  userEmail : String
  userPhone : String
  createdAt : Int
  expiresAt : Int
deriving DecidableEq

/-- The whole mutable state: the Prisma store plus the Redis keyspace used for
`temp_order:*` entries. -/
structure AppState where
  db : Db
  users : List UserRow
  addresses : List AddressRow
  orders : List OrderRow
  orderItems : List OrderItemRow
  statusHistory : List HistoryEntry
  carts : List CartRow
  cartItems : List CartItemRow
  coupons : List Coupon
  tempOrders : List (String × TempOrderData)
deriving DecidableEq

/-- External collaborators: the HMAC primitive, the Razorpay SDK (payment
status lookup and gateway order-id minting), the clock and the id/number
generators.  All are deterministic parameters of a single request. -/
structure Env where
  secret : String
  webhookSecret : Option String
  hmac : String → String → String
  paymentStatusOf : String → String
  now : Int
  newOrderId : String
  orderNumber : String
  trackingNumber : String
  razorpayOrderId : String

/-- JS truthiness of an optional string (`undefined`, `null` and `""` are
falsy). -/
def isTruthyOpt (o : Option String) : Bool := !(o.getD "" == "")

/-- JS `a || b` on an optional string with a string fallback. -/
def jsOrStr (o : Option String) (d : String) : String :=
  if isTruthyOpt o then o.getD "" else d

/-! ## `createOrder` (order controller, lines 217-404)

The COD/legacy order-creation path.  Inside one `prisma.$transaction` it
validates the coupon, then per item re-reads the product (with the referenced
variant), checks the read stock value, and writes back
`stock: variant.stock - item.quantity` (an absolute write computed from the
read value, not a conditional decrement), accumulates the subtotal, then
creates the order with `totalAmount: subtotal - discountAmount`, bumps the
coupon counter and deletes the cart.  An early `return` for a failed check
resolves the transaction callback, so stock writes made for earlier items are
committed, not rolled back. -/

structure COReq where
  userId : String
  shippingAddressId : String
  paymentMethod : String
  items : List StockItem
  couponCode : Option String
deriving DecidableEq

structure OrderItemDraft where
  productId : String
  variantId : Option String
  quantity : Int
  price : ℚ
deriving DecidableEq

inductive COLoopRes where
  | notFound (pid : String)
  | insufficient (name : String)
  | done (subtotal : ℚ) (drafts : List OrderItemDraft) (targets : List (UnitRef × Int))
deriving DecidableEq

/-- The per-item loop of `createOrder`.  `targets` is bookkeeping recording, for
each executed stock-update statement, which unit row it wrote and the quantity
subtracted — used only to state the stock-accounting theorems. -/
def createOrderLoop : List StockItem → Db → ℚ → List OrderItemDraft → List (UnitRef × Int) → Db × COLoopRes
  | [], db, sub, drafts, tgts => (db, .done sub drafts.reverse tgts.reverse)
  | i :: rest, db, sub, drafts, tgts =>
    match db.products.find? (fun p => p.id == i.productId) with
    | none => (db, .notFound i.productId)
    | some prod =>
      let variant : Option Variant := match i.variantId with
        | some vid => db.variants.find? (fun v => v.id == vid && v.productId == prod.id)
        | none => none
      match variant with
      | some v =>
        if v.stock < i.quantity then (db, .insufficient prod.name)
        else
          let price := v.price.getD prod.price
          createOrderLoop rest
            { db with variants := updateFirst (fun w => w.id == v.id) (fun w => { w with stock := v.stock - i.quantity }) db.variants }
            (sub + price * i.quantity)
            ({ productId := i.productId, variantId := i.variantId, quantity := i.quantity, price := price } :: drafts)
            ((.variantU v.id, i.quantity) :: tgts)
      | none =>
        if prod.stockQuantity < i.quantity then (db, .insufficient prod.name)
        else
          let price := prod.price
          createOrderLoop rest
            { db with products := updateFirst (fun w => w.id == prod.id) (fun w => { w with stockQuantity := prod.stockQuantity - i.quantity }) db.products }
            (sub + price * i.quantity)
            ({ productId := i.productId, variantId := i.variantId, quantity := i.quantity, price := price } :: drafts)
            ((.productU prod.id, i.quantity) :: tgts)

def discountFor (c : Coupon) (subtotal : ℚ) : ℚ :=
  match c.dtype with
  | .PERCENTAGE =>
    let d := subtotal * c.value / 100
    match c.maxDiscount with
    | some m => if m ≠ 0 then min d m else d
    | none => d
  | .FIXED_AMOUNT => c.value
  | .FREE_SHIPPING => 0

def findValidCoupon (st : AppState) (now : Int) (code : String) : Option Coupon :=
  st.coupons.find? (fun c =>
    c.code == code && c.isActive && decide (c.validFrom ≤ now) && decide (now ≤ c.validUntil))

inductive COResult where
  | invalidCoupon
  | productNotFound (pid : String)
  | insufficientStock (name : String)
  | created (o : OrderRow) (targets : List (UnitRef × Int))
deriving DecidableEq

def strUpper (s : String) : String := String.mk (s.data.map Char.toUpper)

/-- The part of `createOrder`'s transaction after coupon resolution: the
item loop, discount computation, order creation, coupon counter bump and cart
deletion. -/
def createOrderBody (env : Env) (req : COReq) (coupon : Option Coupon) (st : AppState) :
    AppState × COResult :=
  match createOrderLoop req.items st.db 0 [] [] with
  | (db', .notFound pid) => ({ st with db := db' }, .productNotFound pid)
  | (db', .insufficient nm) => ({ st with db := db' }, .insufficientStock nm)
  | (db', .done subtotal drafts targets) =>
    let discountAmount := match coupon with
      | some c => discountFor c subtotal
      | none => 0
    let isCOD := strUpper req.paymentMethod == "COD" || strUpper req.paymentMethod == "CASH_ON_DELIVERY"
    let orderStatus := if isCOD then OrderStatus.CONFIRMED else OrderStatus.PENDING
    let statusNote := if isCOD then "Order confirmed - Cash on Delivery" else "Order created"
    let order : OrderRow :=
      { id := env.newOrderId, orderNumber := env.orderNumber, userId := req.userId,
        status := orderStatus, paymentStatus := PaymentStatus.PENDING,
        paymentMethod := req.paymentMethod, paymentId := none,
        shippingAddressId := req.shippingAddressId,
        subtotal := subtotal, discountAmount := discountAmount,
        totalAmount := subtotal - discountAmount,
        couponId := coupon.map (fun c => c.id), trackingNumber := env.trackingNumber }
    let newItems : List OrderItemRow := drafts.map (fun d =>
      { orderId := order.id, productId := d.productId, variantId := d.variantId,
        quantity := d.quantity, price := d.price })
    let newHist : HistoryEntry := { orderId := order.id, status := orderStatus, note := statusNote }
    let st1 : AppState :=
      { st with
        db := db'
        orders := order :: st.orders
        orderItems := st.orderItems ++ newItems
        statusHistory := st.statusHistory ++ [newHist] }
    let st2 := match coupon with
      | some c => { st1 with coupons := updateFirst (fun w => w.id == c.id) (fun w => { w with usageCount := w.usageCount + 1 }) st1.coupons }
      | none => st1
    let st3 := { st2 with
      carts := st2.carts.filter (fun cr => !(cr.userId == req.userId)),
      cartItems := st2.cartItems.filter (fun ci => !(ci.userId == req.userId)) }
    (st3, .created order targets)

def createOrder (env : Env) (req : COReq) (st : AppState) : AppState × COResult :=
  if isTruthyOpt req.couponCode then
    match findValidCoupon st env.now (req.couponCode.getD "") with
    | none => (st, .invalidCoupon)
    | some c => createOrderBody env req (some c) st
  else createOrderBody env req none st

/-! ## `createRazorpayOrderFromCart` (order controller, lines 786-934)

Creates the gateway-side order and stores the `temp_order:*` binding after
validating the snapshot: per item, the variant must exist and belong to the
item's product and its price must equal the snapshot price **exactly**
(`variant.price !== item.price`), or the product must exist with exactly the
snapshot price; then the recomputed subtotal must match the declared subtotal
within `0.01`. -/

inductive CRResult where
  | userNotFound
  | addressNotFound
  | invalidVariant (vid : String)
  | variantPriceMismatch (vid : String)
  | productNotFound (pid : String)
  | productPriceMismatch (pid : String)
  | subtotalMismatch
  | success (razorpayOrderId : String)
deriving DecidableEq

structure CreateFromCartReq where
  userId : String
  cartData : PricedCartData
  userEmail : Option String
  userPhone : Option String
deriving DecidableEq

/-- The per-item validation loop, accumulating `calculatedSubtotal`. -/
def validateCartItems (db : Db) : List PricedCartItem → ℚ → Except CRResult ℚ
  | [], acc => .ok acc
  | i :: rest, acc =>
    match i.variantId with
    | some vid =>
      match db.variants.find? (fun v => v.id == vid) with
      | none => .error (.invalidVariant vid)
      | some v =>
        if v.productId ≠ i.productId then .error (.invalidVariant vid)
        else if v.price ≠ some i.price then .error (.variantPriceMismatch vid)
        else validateCartItems db rest (acc + i.price * (i.quantity : ℚ))
    | none =>
      match db.products.find? (fun p => p.id == i.productId) with
      | none => .error (.productNotFound i.productId)
      | some p =>
        if p.price ≠ i.price then .error (.productPriceMismatch i.productId)
        else validateCartItems db rest (acc + i.price * (i.quantity : ℚ))

def tempKey (rid : String) : String := "temp_order:" ++ rid

def createRazorpayOrderFromCart (env : Env) (req : CreateFromCartReq) (st : AppState) : AppState × CRResult :=
  match st.users.find? (fun u => u.id == req.userId) with
  | none => (st, .userNotFound)
  | some user =>
    match st.addresses.find? (fun a => a.id == req.cartData.shippingAddressId && a.userId == req.userId) with
    | none => (st, .addressNotFound)
    | some _ =>
      match validateCartItems st.db req.cartData.items 0 with
      | .error e => (st, e)
      | .ok calculatedSubtotal =>
        if 1/100 < abs (calculatedSubtotal - req.cartData.subtotal) then (st, .subtotalMismatch)
        else
          let temp : TempOrderData :=
            { razorpayOrderId := env.razorpayOrderId, cartData := req.cartData,
              userId := req.userId,
              userEmail := jsOrStr req.userEmail user.email,
              userPhone := jsOrStr req.userPhone (jsOrStr user.phone ""),
              createdAt := env.now, expiresAt := env.now + 3600 }
          ({ st with tempOrders := (tempKey env.razorpayOrderId, temp) :: st.tempOrders },
           .success env.razorpayOrderId)

/-- Modelled from the spec (§4.2): per-item unit-price comparison *within a
small epsilon* and subtotal recomputation within the same epsilon — the
validator the specification describes, kept separate so it can be compared
against the source's `createRazorpayOrderFromCart` validation. -/
def specValidateCart (db : Db) (cart : PricedCartData) : Bool :=
  (cart.items.all (fun i =>
    match i.variantId with
    | some vid =>
      match db.variants.find? (fun v => v.id == vid) with
      | some v => decide (v.productId = i.productId) && decide (abs (v.price.getD 0 - i.price) ≤ 1/100)
      | none => false
    | none =>
      match db.products.find? (fun p => p.id == i.productId) with
      | some p => decide (abs (p.price - i.price) ≤ 1/100)
      | none => false))
  && decide (abs ((cart.items.map (fun i => i.price * (i.quantity : ℚ))).sum - cart.subtotal) ≤ 1/100)

/-- Exact per-item price agreement, the check the source actually performs. -/
def unitPricesExact (db : Db) (items : List PricedCartItem) : Bool :=
  items.all (fun i =>
    match i.variantId with
    | some vid =>
      match db.variants.find? (fun v => v.id == vid) with
      | some v => decide (v.productId = i.productId) && decide (v.price = some i.price)
      | none => false
    | none =>
      match db.products.find? (fun p => p.id == i.productId) with
      | some p => decide (p.price = i.price)
      | none => false)

def snapSubtotal (items : List PricedCartItem) : ℚ :=
  (items.map (fun i => i.price * (i.quantity : ℚ))).sum

/-! ## `verifyPaymentAndCreateOrder` (order controller, lines 997-1236)

Signature check, payment-captured check, `temp_order` lookup, user check,
coupon pre-check, then one `prisma.$transaction` whose body reserves stock and
persists everything; on success the Redis record is deleted. -/

/-- The body's fallible Prisma steps after stock reservation; used to model a
store failure injected at that step (the `$transaction` then rolls back). -/
inductive TxStep where
  | orderCreate | itemCreate | historyCreate | cartClear | cartUpdate | couponUpdate
deriving DecidableEq

/-- `prisma.$transaction`: run the body; if it throws, all its state changes
are discarded and the committed state is the input state. -/
def runTx (st : AppState) (body : AppState → Except String (AppState × OrderRow)) :
    AppState × Except String OrderRow :=
  match body st with
  | .ok (st', o) => (st', .ok o)
  | .error e => (st, .error e)

/-- The un-priced cart payload of `IVerifyPaymentWithCartRequest`. -/
structure VerifyCartData where
  items : List StockItem
  shippingAddressId : String
  paymentMethod : String
  couponCode : Option String
deriving DecidableEq

structure VerifyRequest where
  razorpay_order_id : String
  razorpay_payment_id : String
  razorpay_signature : String
  cartData : VerifyCartData
  userId : String
deriving DecidableEq

def sigBody (req : VerifyRequest) : String :=
  req.razorpay_order_id ++ "|" ++ req.razorpay_payment_id

def lookupTemp (st : AppState) (rid : String) : Option TempOrderData :=
  ((st.tempOrders.find? (fun e => e.1 == tempKey rid))).map (fun e => e.2)

def deleteTemp (st : AppState) (rid : String) : AppState :=
  { st with tempOrders := st.tempOrders.filter (fun e => !(e.1 == tempKey rid)) }

/-- The transaction body (lines 1112-1192): reserve stock (throwing on
failure), create the order row from the *stored snapshot's* monetary fields,
create the order items from the *reserved* items, append the status-history
entry, clear the cart items, zero the cart, and bump the coupon counter. -/
def verifyTxBody (fault : Option TxStep) (env : Env) (req : VerifyRequest) (temp : TempOrderData)
    (couponId : Option String) (st : AppState) : Except String (AppState × OrderRow) :=
  let rs := reserveStock req.cartData.items st.db
  if rs.2.success then
    if fault = some TxStep.orderCreate then .error "injected store failure: order insert" else
    let order : OrderRow :=
      { id := env.newOrderId, orderNumber := env.orderNumber, userId := req.userId,
        status := OrderStatus.CONFIRMED, paymentStatus := PaymentStatus.PAID,
        paymentMethod := req.cartData.paymentMethod,
        paymentId := some req.razorpay_payment_id,
        shippingAddressId := req.cartData.shippingAddressId,
        subtotal := temp.cartData.subtotal,
        discountAmount := temp.cartData.discount,
        totalAmount := temp.cartData.total,
        couponId := couponId, trackingNumber := env.trackingNumber }
    let st1 : AppState := { st with db := rs.1, orders := order :: st.orders }
    if fault = some TxStep.itemCreate then .error "injected store failure: order items" else
    let st2 : AppState :=
      { st1 with orderItems := st1.orderItems ++ (rs.2.reservedItems.getD []).map (fun ri =>
          { orderId := order.id, productId := ri.productId, variantId := ri.variantId,
            quantity := ri.quantity, price := ri.price }) }
    if fault = some TxStep.historyCreate then .error "injected store failure: status history" else
    let st3 : AppState :=
      { st2 with statusHistory := st2.statusHistory ++
          [{ orderId := order.id, status := OrderStatus.CONFIRMED, note := "Order confirmed after successful payment" }] }
    if fault = some TxStep.cartClear then .error "injected store failure: cart items" else
    let st4 : AppState := { st3 with cartItems := st3.cartItems.filter (fun ci => !(ci.userId == req.userId)) }
    if fault = some TxStep.cartUpdate then .error "injected store failure: cart update" else
    let st5 : AppState :=
      { st4 with carts := st4.carts.map (fun c =>
          if c.userId == req.userId then { c with subtotal := 0, total := 0 } else c) }
    match couponId with
    | none => .ok (st5, order)
    | some cid =>
      if fault = some TxStep.couponUpdate then .error "injected store failure: coupon update" else
      match st5.coupons.find? (fun c => c.id == cid) with
      | none => .error p2025
      | some _ =>
        .ok ({ st5 with coupons := updateFirst (fun w => w.id == cid) (fun w => { w with usageCount := w.usageCount + 1 }) st5.coupons }, order)
  else .error (jsOrStr rs.2.message "Failed to reserve stock")

inductive VResult where
  | badSignature
  | notCaptured
  | sessionExpired
  | userMismatch
  | invalidCoupon
  | txError (msg : String)
  | success (orderId : String)
deriving DecidableEq

/-- The coupon pre-check before the transaction (lines 1088-1110): only when
both the request's and the stored snapshot's coupon codes are truthy. -/
def couponPre (env : Env) (req : VerifyRequest) (temp : TempOrderData) (st : AppState) :
    Except Unit (Option String) :=
  if isTruthyOpt req.cartData.couponCode && isTruthyOpt temp.cartData.couponCode then
    match findValidCoupon st env.now (req.cartData.couponCode.getD "") with
    | none => .error ()
    | some c => .ok (some c.id)
  else .ok none

def verifyPaymentAndCreateOrder (env : Env) (fault : Option TxStep) (req : VerifyRequest)
    (st : AppState) : AppState × VResult :=
  if env.hmac env.secret (sigBody req) ≠ req.razorpay_signature then (st, .badSignature)
  else if env.paymentStatusOf req.razorpay_payment_id ≠ "captured" then (st, .notCaptured)
  else
    match lookupTemp st req.razorpay_order_id with
    | none => (st, .sessionExpired)
    | some temp =>
      if temp.userId ≠ req.userId then (st, .userMismatch)
      else
        match couponPre env req temp st with
        | .error _ => (st, .invalidCoupon)
        | .ok couponId =>
          match runTx st (verifyTxBody fault env req temp couponId) with
          | (st', .ok order) => (deleteTemp st' req.razorpay_order_id, .success order.id)
          | (st', .error e) => (st', .txError e)

/-! ## Webhook handling (order controller, lines 1238-1348) -/

structure PaymentEntity where
  id : String
  notesOrderId : Option String
deriving DecidableEq

structure RefundEntity where
  id : String
  notesOrderId : Option String
deriving DecidableEq

/-- The parsed webhook JSON: the event name and the payload entities the
handlers read (`event.payload.payment.entity` / `event.payload.refund.entity`). -/
structure WebhookEvent where
  eventName : String
  payment : PaymentEntity
  refund : RefundEntity
deriving DecidableEq

structure WebhookReq where
  rawBody : String
  signature : Option String
  event : WebhookEvent
deriving DecidableEq

inductive WebhookResp where
  | missingSecretOrSig
  | invalidSignature
  | processed
  | handlerFailure (msg : String)
deriving DecidableEq

def handlePaymentCaptured (payment : PaymentEntity) (st : AppState) : Except String AppState :=
  match payment.notesOrderId with
  | none => .ok st
  | some oid =>
    match st.orders.find? (fun o => o.id == oid) with
    | none => .error p2025
    | some _ =>
      .ok { st with
        orders := updateFirst (fun o => o.id == oid)
          (fun o => { o with paymentStatus := PaymentStatus.PAID, paymentId := some payment.id,
                             status := OrderStatus.CONFIRMED }) st.orders,
        statusHistory := st.statusHistory ++
          [{ orderId := oid, status := OrderStatus.CONFIRMED, note := "Payment captured successfully" }] }

def handlePaymentFailed (payment : PaymentEntity) (st : AppState) : Except String AppState :=
  match payment.notesOrderId with
  | none => .ok st
  | some oid =>
    match st.orders.find? (fun o => o.id == oid) with
    | none => .error p2025
    | some _ =>
      .ok { st with
        orders := updateFirst (fun o => o.id == oid)
          (fun o => { o with paymentStatus := PaymentStatus.FAILED, paymentId := some payment.id,
                             status := OrderStatus.CANCELLED }) st.orders,
        statusHistory := st.statusHistory ++
          [{ orderId := oid, status := OrderStatus.CANCELLED, note := "Payment failed" }] }

def handleRefundProcessed (refund : RefundEntity) (st : AppState) : Except String AppState :=
  match refund.notesOrderId with
  | none => .ok st
  | some oid =>
    match st.orders.find? (fun o => o.id == oid) with
    | none => .error p2025
    | some _ =>
      .ok { st with
        orders := updateFirst (fun o => o.id == oid)
          (fun o => { o with paymentStatus := PaymentStatus.REFUNDED,
                             status := OrderStatus.REFUNDED }) st.orders,
        statusHistory := st.statusHistory ++
          [{ orderId := oid, status := OrderStatus.REFUNDED, note := "Refund processed: " ++ refund.id }] }

def dispatchHandler (h : Except String AppState) (st : AppState) : AppState × WebhookResp :=
  match h with
  | .ok st' => (st', .processed)
  | .error e => (st, .handlerFailure e)

def handleWebhook (env : Env) (req : WebhookReq) (st : AppState) : AppState × WebhookResp :=
  let ws := env.webhookSecret.getD ""
  let sig := req.signature.getD ""
  if ws == "" || sig == "" then (st, .missingSecretOrSig)
  else if env.hmac ws req.rawBody ≠ sig then (st, .invalidSignature)
  else
    match req.event.eventName with
    | "payment.captured" => dispatchHandler (handlePaymentCaptured req.event.payment st) st
    | "payment.failed" => dispatchHandler (handlePaymentFailed req.event.payment st) st
    | "refund.processed" => dispatchHandler (handleRefundProcessed req.event.refund st) st
    | _ => (st, .processed)

/-! ## Cache layer (`cacheWrapper`, cache.service.ts lines 56-69 / 142-170)

Decoded JSON values with JS truthiness; composite values (arrays/objects,
always truthy) are opaque.  `getCache` yields the decoded value or `null`;
`cacheWrapper` returns the cached value only when it is truthy (`if (cached)`),
otherwise runs `fn`, re-stores and returns its result. -/

inductive JSValue where
  | jnull
  | jbool (b : Bool)
  | jnum (q : ℚ)
  | jstr (s : String)
  | jcomposite (tag : Nat)
deriving DecidableEq

def jsTruthy : JSValue → Bool
  | .jnull => false
  | .jbool b => b
  | .jnum q => decide (q ≠ 0)
  | .jstr s => !(s == "")
  | .jcomposite _ => true

/-- The cache keyspace, holding decoded values. -/
def CacheSt : Type := List (String × JSValue)

def getCache (st : CacheSt) (key : String) : JSValue :=
  ((st.find? (fun e => e.1 == key)).map (fun e => e.2)).getD .jnull

def setCache (st : CacheSt) (key : String) (v : JSValue) : CacheSt :=
  (key, v) :: st.filter (fun e => !(e.1 == key))

def cacheWrapper (key : String) (fn : Unit → JSValue) (st : CacheSt) : CacheSt × JSValue :=
  let cached := getCache st key
  if jsTruthy cached then (st, cached)
  else
    let data := fn ()
    (setCache st key data, data)

/-! ## Stock accounting for the `createOrder` loop -/

def tgtQtyU (t : List (UnitRef × Int)) (u : UnitRef) : Int :=
  (t.map (fun e => if e.1 = u then e.2 else 0)).sum

theorem tgtQtyU_reverse (t : List (UnitRef × Int)) (u : UnitRef) :
    tgtQtyU t.reverse u = tgtQtyU t u := by
  unfold tgtQtyU
  rw [List.map_reverse, List.sum_reverse]

theorem tgtQtyU_nonneg {t : List (UnitRef × Int)} (h : ∀ e ∈ t, 0 ≤ e.2) (u : UnitRef) :
    0 ≤ tgtQtyU t u := by
  unfold tgtQtyU
  induction t with
  | nil => simp
  | cons e rest ih =>
    simp only [List.map_cons, List.sum_cons]
    have h1 : 0 ≤ (if e.1 = u then e.2 else 0) := by
      split
      · exact h e (List.mem_cons_self _ _)
      · exact le_refl 0
    have h2 := ih (fun x hx => h x (List.mem_cons_of_mem _ hx))
    omega

def loopSold : COLoopRes → UnitRef → Int
  | .done _ _ t, u => tgtQtyU t u
  | _, _ => 0

/-- Effects of the `createOrder` absolute stock write on a variant row located
by `variant.id`, given that that row really is `v`. -/
theorem writeVariant_effects {db : Db} {v : Variant} (q : Int)
    (hfind : db.variants.find? (fun w => w.id == v.id) = some v) :
    (∀ u, stockOfU { db with variants := updateFirst (fun w => w.id == v.id) (fun w => { w with stock := v.stock - q }) db.variants } u
       = stockOfU db u - (if u = .variantU v.id then q else 0)) ∧
    (q ≤ v.stock → dbNonneg db →
      dbNonneg { db with variants := updateFirst (fun w => w.id == v.id) (fun w => { w with stock := v.stock - q }) db.variants }) ∧
    (dbIdsNodup db →
      dbIdsNodup { db with variants := updateFirst (fun w => w.id == v.id) (fun w => { w with stock := v.stock - q }) db.variants }) := by
  refine ⟨?_, ?_, ?_⟩
  · intro u
    cases u with
    | productU pid => simp [stockOfU]
    | variantU vid' =>
      by_cases hvv : vid' = v.id
      · rw [hvv]
        have hfu := find?_updateFirst_self (p := fun w : Variant => w.id == v.id)
          (f := fun w => { w with stock := v.stock - q }) (fun x hx => hx) db.variants
        simp [stockOfU, hfu, hfind]
      · have hfu := find?_updateFirst_of_ne (p := fun w : Variant => w.id == v.id)
          (q := fun w : Variant => w.id == vid')
          (f := fun w => { w with stock := v.stock - q })
          (fun x => rfl)
          (fun x hx => by
            have hxv : x.id = v.id := eq_of_beq hx
            simp [hxv, Ne.symm hvv]) db.variants
        simp [stockOfU, hfu, hvv]
  · intro hq hnn
    refine ⟨hnn.1, ?_⟩
    intro w hw
    rcases updateFirst_mem hw with hmem | ⟨x, hx, hwx⟩
    · exact hnn.2 w hmem
    · subst hwx
      simp only
      have hv := hnn.2 v (List.mem_of_find?_eq_some hfind)
      omega
  · intro hnd
    refine ⟨hnd.1, ?_⟩
    have hmap := map_updateFirst (p := fun w : Variant => w.id == v.id)
      (f := fun w => { w with stock := v.stock - q }) (fun w : Variant => w.id) (fun x => rfl) db.variants
    simpa [hmap] using hnd.2

/-- Effects of the `createOrder` absolute stock write on a product row located
by `product.id`, given that that row really is `p`. -/
theorem writeProduct_effects {db : Db} {p : Product} (q : Int)
    (hfind : db.products.find? (fun w => w.id == p.id) = some p) :
    (∀ u, stockOfU { db with products := updateFirst (fun w => w.id == p.id) (fun w => { w with stockQuantity := p.stockQuantity - q }) db.products } u
       = stockOfU db u - (if u = .productU p.id then q else 0)) ∧
    (q ≤ p.stockQuantity → dbNonneg db →
      dbNonneg { db with products := updateFirst (fun w => w.id == p.id) (fun w => { w with stockQuantity := p.stockQuantity - q }) db.products }) ∧
    (dbIdsNodup db →
      dbIdsNodup { db with products := updateFirst (fun w => w.id == p.id) (fun w => { w with stockQuantity := p.stockQuantity - q }) db.products }) := by
  refine ⟨?_, ?_, ?_⟩
  · intro u
    cases u with
    | variantU vid => simp [stockOfU]
    | productU pid' =>
      by_cases hvv : pid' = p.id
      · rw [hvv]
        have hfu := find?_updateFirst_self (p := fun w : Product => w.id == p.id)
          (f := fun w => { w with stockQuantity := p.stockQuantity - q }) (fun x hx => hx) db.products
        simp [stockOfU, hfu, hfind]
      · have hfu := find?_updateFirst_of_ne (p := fun w : Product => w.id == p.id)
          (q := fun w : Product => w.id == pid')
          (f := fun w => { w with stockQuantity := p.stockQuantity - q })
          (fun x => rfl)
          (fun x hx => by
            have hxp : x.id = p.id := eq_of_beq hx
            simp [hxp, Ne.symm hvv]) db.products
        simp [stockOfU, hfu, hvv]
  · intro hq hnn
    refine ⟨?_, hnn.2⟩
    intro w hw
    rcases updateFirst_mem hw with hmem | ⟨x, hx, hwx⟩
    · exact hnn.1 w hmem
    · subst hwx
      simp only
      omega
  · intro hnd
    refine ⟨?_, hnd.2⟩
    have hmap := map_updateFirst (p := fun w : Product => w.id == p.id)
      (f := fun w => { w with stockQuantity := p.stockQuantity - q }) (fun w : Product => w.id) (fun x => rfl) db.products
    simpa [hmap] using hnd.1

/-- Stock accounting for the `createOrder` per-item loop: non-negativity and
unique ids are preserved, and the stock of every unit drops by at least the
quantities recorded against it (exactly, on the success path). -/
theorem createOrderLoop_bound (u : UnitRef) :
    ∀ (items : List StockItem) (db : Db) (sub : ℚ) (drafts : List OrderItemDraft) (tgts : List (UnitRef × Int)),
      dbNonneg db → dbIdsNodup db → (∀ i ∈ items, 0 ≤ i.quantity) → (∀ e ∈ tgts, 0 ≤ e.2) →
      dbNonneg (createOrderLoop items db sub drafts tgts).1 ∧
      dbIdsNodup (createOrderLoop items db sub drafts tgts).1 ∧
      stockOfU (createOrderLoop items db sub drafts tgts).1 u
        + loopSold (createOrderLoop items db sub drafts tgts).2 u - tgtQtyU tgts u
        ≤ stockOfU db u := by
  intro items
  induction items with
  | nil =>
    intro db sub drafts tgts hnn hnd _ htg
    refine ⟨hnn, hnd, ?_⟩
    simp [createOrderLoop, loopSold, tgtQtyU_reverse]
  | cons i rest ih =>
    intro db sub drafts tgts hnn hnd hq htg
    have hq0 : 0 ≤ i.quantity := hq i (List.mem_cons_self _ _)
    have hqrest : ∀ j ∈ rest, 0 ≤ j.quantity := fun j hj => hq j (List.mem_cons_of_mem _ hj)
    have htgn : 0 ≤ tgtQtyU tgts u := tgtQtyU_nonneg htg u
    cases hfp : db.products.find? (fun p => p.id == i.productId) with
    | none =>
      have hgo : createOrderLoop (i :: rest) db sub drafts tgts = (db, .notFound i.productId) := by
        rw [createOrderLoop]; simp only [hfp]
      rw [hgo]
      refine ⟨hnn, hnd, ?_⟩
      simp only [loopSold]
      omega
    | some prod =>
      have hpid : prod.id = i.productId := by
        have h1 := List.find?_some hfp
        simp at h1
        exact h1
      have hpfind : db.products.find? (fun w => w.id == prod.id) = some prod := by
        rw [hpid]; exact hfp
      cases hvi : i.variantId with
      | some vid =>
        cases hfv : db.variants.find? (fun v => v.id == vid && v.productId == prod.id) with
        | none =>
          by_cases hs : prod.stockQuantity < i.quantity
          · have hgo : createOrderLoop (i :: rest) db sub drafts tgts = (db, .insufficient prod.name) := by
              rw [createOrderLoop]; simp only [hfp, hvi, hfv, hs, if_true]
            rw [hgo]
            refine ⟨hnn, hnd, ?_⟩
            simp only [loopSold]
            omega
          · have heff := writeProduct_effects (p := prod) i.quantity hpfind
            have hnn1 := heff.2.1 (by omega) hnn
            have hnd1 := heff.2.2 hnd
            have hgo : createOrderLoop (i :: rest) db sub drafts tgts =
                createOrderLoop rest
                  { db with products := updateFirst (fun w => w.id == prod.id) (fun w => { w with stockQuantity := prod.stockQuantity - i.quantity }) db.products }
                  (sub + prod.price * (i.quantity : ℚ))
                  ({ productId := i.productId, variantId := i.variantId, quantity := i.quantity, price := prod.price } :: drafts)
                  ((.productU prod.id, i.quantity) :: tgts) := by
              conv_lhs => rw [createOrderLoop]
              simp only [hfp, hvi, hfv, hs, if_false]
            rw [hgo]
            have htg1 : ∀ e ∈ ((UnitRef.productU prod.id, i.quantity) :: tgts), 0 ≤ e.2 := by
              intro e he
              rcases List.mem_cons.mp he with h | h
              · rw [h]; exact hq0
              · exact htg e h
            obtain ⟨hnnf, hndf, hbound⟩ := ih _ _ _ _ hnn1 hnd1 hqrest htg1
            refine ⟨hnnf, hndf, ?_⟩
            have hstock := heff.1 u
            have htq : tgtQtyU ((UnitRef.productU prod.id, i.quantity) :: tgts) u
                = (if UnitRef.productU prod.id = u then i.quantity else 0) + tgtQtyU tgts u := by
              unfold tgtQtyU
              simp
            rw [htq] at hbound
            by_cases hu : u = .productU prod.id
            · rw [if_pos hu] at hstock
              rw [if_pos hu.symm] at hbound
              omega
            · rw [if_neg hu] at hstock
              rw [if_neg (fun hc => hu hc.symm)] at hbound
              omega
        | some v =>
          have hvid : v.id = vid := by
            have h1 := List.find?_some hfv
            simp at h1
            exact h1.1
          have hvfind : db.variants.find? (fun w => w.id == v.id) = some v := by
            rw [hvid]
            exact find?_of_composite_nodup (fun w : Variant => w.id)
              (fun w => w.productId == prod.id) hnd.2 hfv
          by_cases hs : v.stock < i.quantity
          · have hgo : createOrderLoop (i :: rest) db sub drafts tgts = (db, .insufficient prod.name) := by
              rw [createOrderLoop]; simp only [hfp, hvi, hfv, hs, if_true]
            rw [hgo]
            refine ⟨hnn, hnd, ?_⟩
            simp only [loopSold]
            omega
          · have heff := writeVariant_effects (v := v) i.quantity hvfind
            have hnn1 := heff.2.1 (by omega) hnn
            have hnd1 := heff.2.2 hnd
            have hgo : createOrderLoop (i :: rest) db sub drafts tgts =
                createOrderLoop rest
                  { db with variants := updateFirst (fun w => w.id == v.id) (fun w => { w with stock := v.stock - i.quantity }) db.variants }
                  (sub + (v.price.getD prod.price) * (i.quantity : ℚ))
                  ({ productId := i.productId, variantId := i.variantId, quantity := i.quantity, price := v.price.getD prod.price } :: drafts)
                  ((.variantU v.id, i.quantity) :: tgts) := by
              conv_lhs => rw [createOrderLoop]
              simp only [hfp, hvi, hfv, hs, if_false]
            rw [hgo]
            have htg1 : ∀ e ∈ ((UnitRef.variantU v.id, i.quantity) :: tgts), 0 ≤ e.2 := by
              intro e he
              rcases List.mem_cons.mp he with h | h
              · rw [h]; exact hq0
              · exact htg e h
            obtain ⟨hnnf, hndf, hbound⟩ := ih _ _ _ _ hnn1 hnd1 hqrest htg1
            refine ⟨hnnf, hndf, ?_⟩
            have hstock := heff.1 u
            have htq : tgtQtyU ((UnitRef.variantU v.id, i.quantity) :: tgts) u
                = (if UnitRef.variantU v.id = u then i.quantity else 0) + tgtQtyU tgts u := by
              unfold tgtQtyU
              simp
            rw [htq] at hbound
            by_cases hu : u = .variantU v.id
            · rw [if_pos hu] at hstock
              rw [if_pos hu.symm] at hbound
              omega
            · rw [if_neg hu] at hstock
              rw [if_neg (fun hc => hu hc.symm)] at hbound
              omega
      | none =>
        by_cases hs : prod.stockQuantity < i.quantity
        · have hgo : createOrderLoop (i :: rest) db sub drafts tgts = (db, .insufficient prod.name) := by
            rw [createOrderLoop]; simp only [hfp, hvi, hs, if_true]
          rw [hgo]
          refine ⟨hnn, hnd, ?_⟩
          simp only [loopSold]
          omega
        · have heff := writeProduct_effects (p := prod) i.quantity hpfind
          have hnn1 := heff.2.1 (by omega) hnn
          have hnd1 := heff.2.2 hnd
          have hgo : createOrderLoop (i :: rest) db sub drafts tgts =
              createOrderLoop rest
                { db with products := updateFirst (fun w => w.id == prod.id) (fun w => { w with stockQuantity := prod.stockQuantity - i.quantity }) db.products }
                (sub + prod.price * (i.quantity : ℚ))
                ({ productId := i.productId, variantId := i.variantId, quantity := i.quantity, price := prod.price } :: drafts)
                ((.productU prod.id, i.quantity) :: tgts) := by
            conv_lhs => rw [createOrderLoop]
            simp only [hfp, hvi, hs, if_false]
          rw [hgo]
          have htg1 : ∀ e ∈ ((UnitRef.productU prod.id, i.quantity) :: tgts), 0 ≤ e.2 := by
            intro e he
            rcases List.mem_cons.mp he with h | h
            · rw [h]; exact hq0
            · exact htg e h
          obtain ⟨hnnf, hndf, hbound⟩ := ih _ _ _ _ hnn1 hnd1 hqrest htg1
          refine ⟨hnnf, hndf, ?_⟩
          have hstock := heff.1 u
          have htq : tgtQtyU ((UnitRef.productU prod.id, i.quantity) :: tgts) u
              = (if UnitRef.productU prod.id = u then i.quantity else 0) + tgtQtyU tgts u := by
            unfold tgtQtyU
            simp
          rw [htq] at hbound
          by_cases hu : u = .productU prod.id
          · rw [if_pos hu] at hstock
            rw [if_pos hu.symm] at hbound
            omega
          · rw [if_neg hu] at hstock
            rw [if_neg (fun hc => hu hc.symm)] at hbound
            omega

def createdSold : COResult → UnitRef → Int
  | .created _ t, u => tgtQtyU t u
  | _, _ => 0

/-- `createOrderBody` preserves stock well-formedness and decrements each unit
by at least the quantities sold against it. -/
theorem createOrderBody_stock (env : Env) (req : COReq) (coupon : Option Coupon) (st : AppState) (u : UnitRef)
    (hnn : dbNonneg st.db) (hnd : dbIdsNodup st.db) (hq : ∀ i ∈ req.items, 0 ≤ i.quantity) :
    dbNonneg (createOrderBody env req coupon st).1.db ∧
    dbIdsNodup (createOrderBody env req coupon st).1.db ∧
    stockOfU (createOrderBody env req coupon st).1.db u
      + createdSold (createOrderBody env req coupon st).2 u
      ≤ stockOfU st.db u := by
  have hloop := createOrderLoop_bound u req.items st.db 0 [] [] hnn hnd hq (by intro e he; simp at he)
  have hz : tgtQtyU ([] : List (UnitRef × Int)) u = 0 := by simp [tgtQtyU]
  rw [hz] at hloop
  unfold createOrderBody
  split
  · rename_i db' pid heq
    rw [heq] at hloop
    refine ⟨hloop.1, hloop.2.1, ?_⟩
    have := hloop.2.2
    simp only [loopSold] at this
    simp only [createdSold]
    omega
  · rename_i db' nm heq
    rw [heq] at hloop
    refine ⟨hloop.1, hloop.2.1, ?_⟩
    have := hloop.2.2
    simp only [loopSold] at this
    simp only [createdSold]
    omega
  · rename_i db' subtotal drafts targets heq
    rw [heq] at hloop
    have hb := hloop.2.2
    simp only [loopSold] at hb
    cases coupon with
    | none =>
      refine ⟨hloop.1, hloop.2.1, ?_⟩
      simp only [createdSold]
      omega
    | some c =>
      refine ⟨hloop.1, hloop.2.1, ?_⟩
      simp only [createdSold]
      omega

/-- `createOrder` preserves stock well-formedness and decrements each unit by
at least the quantities sold against it. -/
theorem createOrder_stock (env : Env) (req : COReq) (st : AppState) (u : UnitRef)
    (hnn : dbNonneg st.db) (hnd : dbIdsNodup st.db) (hq : ∀ i ∈ req.items, 0 ≤ i.quantity) :
    dbNonneg (createOrder env req st).1.db ∧ dbIdsNodup (createOrder env req st).1.db ∧
    stockOfU (createOrder env req st).1.db u + createdSold (createOrder env req st).2 u
      ≤ stockOfU st.db u := by
  unfold createOrder
  by_cases htc : isTruthyOpt req.couponCode
  · rw [if_pos htc]
    cases hfc : findValidCoupon st env.now (req.couponCode.getD "") with
    | none => exact ⟨hnn, hnd, by simp [createdSold]⟩
    | some c => exact createOrderBody_stock env req (some c) st u hnn hnd hq
  · rw [if_neg htc]
    exact createOrderBody_stock env req none st u hnn hnd hq

/-! ## Sequences of stock-reservation attempts

An attempt is either a `reserveStock` call (the stock ledger) or a
`createOrder` call (the legacy path, whose stock phase runs its check and
write inside the same serialized transaction). -/

inductive Attempt where
  | ledger (items : List StockItem)
  | legacy (req : COReq)

inductive AttemptRes where
  | ledgerRes (r : StockReservationResult)
  | legacyRes (r : COResult)

def runAttempt (env : Env) (st : AppState) : Attempt → AppState × AttemptRes
  | .ledger items =>
    let rs := reserveStock items st.db
    ({ st with db := rs.1 }, .ledgerRes rs.2)
  | .legacy req =>
    let co := createOrder env req st
    (co.1, .legacyRes co.2)

def runAttempts (env : Env) : List Attempt → AppState → AppState × List AttemptRes
  | [], st => (st, [])
  | a :: rest, st =>
    let s1 := runAttempt env st a
    let s2 := runAttempts env rest s1.1
    (s2.1, s1.2 :: s2.2)

/-- Quantity successfully reserved at unit `u` by one attempt: the reserved
items of a successful `reserveStock` call, or the executed stock decrements of
a completed `createOrder`; a failed attempt reserves nothing. -/
def attemptSoldU : AttemptRes → UnitRef → Int
  | .ledgerRes r, u => soldOf r u
  | .legacyRes r, u => createdSold r u

def soldU (rs : List AttemptRes) (u : UnitRef) : Int :=
  (rs.map (fun r => attemptSoldU r u)).sum

def attemptQtysOK : Attempt → Prop
  | .ledger items => ∀ i ∈ items, 0 ≤ i.quantity
  | .legacy req => ∀ i ∈ req.items, 0 ≤ i.quantity

theorem runAttempt_stock (env : Env) (st : AppState) (a : Attempt) (u : UnitRef)
    (hnn : dbNonneg st.db) (hnd : dbIdsNodup st.db) (hq : attemptQtysOK a) :
    dbNonneg (runAttempt env st a).1.db ∧ dbIdsNodup (runAttempt env st a).1.db ∧
    stockOfU (runAttempt env st a).1.db u + attemptSoldU (runAttempt env st a).2 u
      ≤ stockOfU st.db u := by
  cases a with
  | ledger items =>
    have hb := @reserveStock_bound items st.db u hnn hq
    have hn := @reserveStock_nodup items st.db hnd
    exact ⟨hb.1, hn, by simp only [runAttempt, attemptSoldU]; exact hb.2⟩
  | legacy req =>
    have hb := createOrder_stock env req st u hnn hnd hq
    exact ⟨hb.1, hb.2.1, by simp only [runAttempt, attemptSoldU]; exact hb.2.2⟩

theorem runAttempts_stock (env : Env) (u : UnitRef) :
    ∀ (attempts : List Attempt) (st : AppState),
      dbNonneg st.db → dbIdsNodup st.db → (∀ a ∈ attempts, attemptQtysOK a) →
      dbNonneg (runAttempts env attempts st).1.db ∧
      dbIdsNodup (runAttempts env attempts st).1.db ∧
      stockOfU (runAttempts env attempts st).1.db u + soldU (runAttempts env attempts st).2 u
        ≤ stockOfU st.db u := by
  intro attempts
  induction attempts with
  | nil =>
    intro st hnn hnd _
    exact ⟨hnn, hnd, by simp [runAttempts, soldU]⟩
  | cons a rest ih =>
    intro st hnn hnd hq
    have h1 := runAttempt_stock env st a u hnn hnd (hq a (List.mem_cons_self _ _))
    have h2 := ih (runAttempt env st a).1 h1.1 h1.2.1 (fun b hb => hq b (List.mem_cons_of_mem _ hb))
    refine ⟨h2.1, h2.2.1, ?_⟩
    have hsum : soldU (runAttempts env (a :: rest) st).2 u
        = attemptSoldU (runAttempt env st a).2 u + soldU (runAttempts env rest (runAttempt env st a).1).2 u := by
      simp [runAttempts, soldU]
    have hfst : (runAttempts env (a :: rest) st).1 = (runAttempts env rest (runAttempt env st a).1).1 := by
      simp [runAttempts]
    rw [hsum, hfst]
    have hb1 := h1.2.2
    have hb2 := h2.2.2
    omega

/-! ## Characterization lemmas for the verify path and pricing validation -/

theorem validateCartItems_ok {db : Db} :
    ∀ (items : List PricedCartItem) (acc s : ℚ),
      validateCartItems db items acc = .ok s →
      unitPricesExact db items = true ∧ s = acc + snapSubtotal items := by
  intro items
  induction items with
  | nil =>
    intro acc s h
    unfold validateCartItems at h
    injection h with h
    exact ⟨rfl, by simp [snapSubtotal, h]⟩
  | cons i rest ih =>
    intro acc s h
    rw [validateCartItems] at h
    split at h
    · rename_i vid hvi
      split at h
      · exact absurd h (by simp)
      · rename_i v hfv
        split at h
        · exact absurd h (by simp)
        · rename_i hp1
          split at h
          · exact absurd h (by simp)
          · rename_i hp2
            obtain ⟨hex, hsum⟩ := ih _ _ h
            constructor
            · unfold unitPricesExact at hex ⊢
              rw [List.all_cons, hex]
              simp only [hvi, hfv, Bool.and_true]
              simp only [not_not] at hp1 hp2
              simp [hp1, hp2]
            · rw [hsum]
              unfold snapSubtotal
              simp only [List.map_cons, List.sum_cons]
              ring
    · rename_i hvi
      split at h
      · exact absurd h (by simp)
      · rename_i p hfp
        split at h
        · exact absurd h (by simp)
        · rename_i hp2
          obtain ⟨hex, hsum⟩ := ih _ _ h
          constructor
          · unfold unitPricesExact at hex ⊢
            rw [List.all_cons, hex]
            simp only [hvi, hfp, Bool.and_true]
            simp only [not_not] at hp2
            simp [hp2]
          · rw [hsum]
            unfold snapSubtotal
            simp only [List.map_cons, List.sum_cons]
            ring

/-- Success of `verifyTxBody`: the stock reservation succeeded, the committed
store is the reserved one, exactly the new order row was added, its monetary
fields are copied verbatim from the stored snapshot, and the Redis keyspace is
untouched. -/
theorem verifyTxBody_ok {fault : Option TxStep} {env : Env} {req : VerifyRequest}
    {temp : TempOrderData} {couponId : Option String} {st st' : AppState} {o : OrderRow}
    (h : verifyTxBody fault env req temp couponId st = .ok (st', o)) :
    (reserveStock req.cartData.items st.db).2.success = true ∧
    st'.db = (reserveStock req.cartData.items st.db).1 ∧
    st'.orders = o :: st.orders ∧
    o.subtotal = temp.cartData.subtotal ∧
    o.discountAmount = temp.cartData.discount ∧
    o.totalAmount = temp.cartData.total ∧
    st'.tempOrders = st.tempOrders := by
  unfold verifyTxBody at h
  simp only [] at h
  repeat' split at h
  all_goals
    first
      | exact Except.noConfusion h
      | (injection h with h
         have hst : st' = _ := (congrArg Prod.fst h).symm
         have ho : o = _ := (congrArg Prod.snd h).symm
         subst hst
         subst ho
         exact ⟨by assumption, rfl, rfl, rfl, rfl, rfl, rfl⟩)

/-- Failure of `verifyTxBody` whenever the reservation fails. -/
theorem verifyTxBody_fail {fault : Option TxStep} {env : Env} {req : VerifyRequest}
    {temp : TempOrderData} {couponId : Option String} {st : AppState}
    (hsuc : (reserveStock req.cartData.items st.db).2.success = false) :
    verifyTxBody fault env req temp couponId st =
      .error (jsOrStr (reserveStock req.cartData.items st.db).2.message "Failed to reserve stock") := by
  unfold verifyTxBody
  rw [if_neg (by rw [hsuc]; exact Bool.false_ne_true)]

/-- Fault injection makes the body throw, whenever the faulted statement
actually runs (the coupon update only runs when a coupon was applied). -/
theorem verifyTxBody_fault {s : TxStep} {env : Env} {req : VerifyRequest}
    {temp : TempOrderData} {couponId : Option String} {st : AppState}
    (hside : s ≠ TxStep.couponUpdate ∨ couponId ≠ none) :
    ∀ o, verifyTxBody (some s) env req temp couponId st ≠ .ok o := by
  intro o h
  unfold verifyTxBody at h
  simp only [] at h
  repeat' split at h
  all_goals
    first
      | exact Except.noConfusion h
      | (cases s <;> simp_all)

theorem validateCartItems_no_success {db : Db} :
    ∀ (items : List PricedCartItem) (acc : ℚ) (rid : String),
      validateCartItems db items acc ≠ .error (CRResult.success rid) := by
  intro items
  induction items with
  | nil => intro acc rid h; exact absurd h (by simp [validateCartItems])
  | cons i rest ih =>
    intro acc rid h
    rw [validateCartItems] at h
    split at h
    · split at h
      · exact absurd h (by simp)
      · split at h
        · exact absurd h (by simp)
        · split at h
          · exact absurd h (by simp)
          · exact ih _ _ h
    · split at h
      · exact absurd h (by simp)
      · split at h
        · exact absurd h (by simp)
        · exact ih _ _ h

theorem lookupTemp_deleteTemp (st : AppState) (rid : String) :
    lookupTemp (deleteTemp st rid) rid = none := by
  unfold lookupTemp deleteTemp
  have := find?_filter_out (fun e : String × TempOrderData => e.1 == tempKey rid) st.tempOrders
  simp only
  rw [this]
  rfl

/-- A successful `verifyPaymentAndCreateOrder` run deletes the `temp_order`
record: the lookup misses afterwards. -/
theorem verify_success_consumes {env : Env} {fault : Option TxStep} {req : VerifyRequest}
    {st st₁ : AppState} {oid : String}
    (h : verifyPaymentAndCreateOrder env fault req st = (st₁, .success oid)) :
    lookupTemp st₁ req.razorpay_order_id = none := by
  unfold verifyPaymentAndCreateOrder at h
  split at h
  · exact absurd (congrArg Prod.snd h) (by simp)
  · split at h
    · exact absurd (congrArg Prod.snd h) (by simp)
    · split at h
      · exact absurd (congrArg Prod.snd h) (by simp)
      · split at h
        · exact absurd (congrArg Prod.snd h) (by simp)
        · split at h
          · exact absurd (congrArg Prod.snd h) (by simp)
          · split at h
            · rename_i st' order heq
              have hst : st₁ = deleteTemp st' req.razorpay_order_id := (congrArg Prod.fst h).symm
              rw [hst]
              exact lookupTemp_deleteTemp st' req.razorpay_order_id
            · exact absurd (congrArg Prod.snd h) (by simp)

/-- With a matching signature and a captured payment, a call that misses the
`temp_order` record rejects as session-expired and leaves the state alone. -/
theorem verify_missing_record {env : Env} {fault : Option TxStep} {req : VerifyRequest}
    {st : AppState}
    (hsig : env.hmac env.secret (sigBody req) = req.razorpay_signature)
    (hcap : env.paymentStatusOf req.razorpay_payment_id = "captured")
    (hmiss : lookupTemp st req.razorpay_order_id = none) :
    verifyPaymentAndCreateOrder env fault req st = (st, .sessionExpired) := by
  unfold verifyPaymentAndCreateOrder
  rw [if_neg (by rw [hsig]; exact fun hc => hc rfl)]
  rw [if_neg (by rw [hcap]; exact fun hc => hc rfl)]
  rw [hmiss]

/-! ## Concrete sample data used by the witnesses -/

def benchEnv : Env :=
  { secret := "sec", webhookSecret := some "whsec",
    hmac := fun _ _ => "sig", paymentStatusOf := fun _ => "captured",
    now := 0, newOrderId := "o1", orderNumber := "N1", trackingNumber := "T1",
    razorpayOrderId := "r1" }

def teeProduct (stock : Int) : Product :=
  { id := "P1", name := "Tee", price := 100, stockQuantity := stock, isActive := true }

def snapOk : PricedCartData :=
  { items := [{ productId := "P1", variantId := none, quantity := 1, price := 100 }],
    subtotal := 100, tax := 0, discount := 0, total := 100,
    couponCode := none, shippingAddressId := "a1" }

def tempOk : TempOrderData :=
  { razorpayOrderId := "r1", cartData := snapOk, userId := "u1",
    userEmail := "u@x", userPhone := "", createdAt := 0, expiresAt := 3600 }

def vreq : VerifyRequest :=
  { razorpay_order_id := "r1", razorpay_payment_id := "p1", razorpay_signature := "sig",
    cartData := { items := [{ productId := "P1", variantId := none, quantity := 1 }],
                  shippingAddressId := "a1", paymentMethod := "razorpay", couponCode := none },
    userId := "u1" }

def mkSt (stock : Int) (temp : TempOrderData) : AppState :=
  { db := { products := [teeProduct stock], variants := [] },
    users := [{ id := "u1", email := "u@x", phone := none }],
    addresses := [{ id := "a1", userId := "u1" }],
    orders := [], orderItems := [], statusHistory := [],
    carts := [], cartItems := [], coupons := [],
    tempOrders := [(tempKey "r1", temp)] }

instance (a : Attempt) : Decidable (attemptQtysOK a) := by
  cases a <;> (unfold attemptQtysOK; infer_instance)

/-! ## Claims -/

/-- Claim C9: `reserveStock` is total over failures: every run either succeeds
and reports, for each input item, the price in effect and the product name
read from the store, or it yields `success = false` together with a message
(any thrown store error, including a conditional update matching no row, is
caught and converted to such a result). -/
theorem c9_reserveStock_total_over_failures (items : List StockItem) (db : Db) :
    ((reserveStock items db).2.success = true ∧
     (reserveStock items db).2.reservedItems = some (items.map (annotate db)) ∧
     (reserveStock items db).2.message = none)
    ∨ ((reserveStock items db).2.success = false ∧
       ∃ m, (reserveStock items db).2.message = some m) := by
  cases hs : (reserveStock items db).2.success with
  | false => exact Or.inr ⟨rfl, reserveStock_failure_message hs⟩
  | true =>
    have h := reserveStock_success_annotate hs
    exact Or.inl ⟨rfl, h.1, h.2⟩

/-- Claim C10: `cacheWrapper` treats any falsy cached decoded value (`null`,
`false`, `0`, `""`) as a miss: it executes `fn`, re-stores its result and
returns it. -/
theorem c10_cacheWrapper_falsy_is_miss (key : String) (fn : Unit → JSValue) (st : CacheSt)
    (h : jsTruthy (getCache st key) = false) :
    cacheWrapper key fn st = (setCache st key (fn ()), fn ()) := by
  unfold cacheWrapper
  simp only []
  rw [if_neg (by rw [h]; exact Bool.false_ne_true)]

theorem c10_cacheWrapper_falsy_is_miss_witness :
    cacheWrapper "k" (fun _ => JSValue.jstr "fresh") [("k", JSValue.jnum 0)]
      = (setCache [("k", JSValue.jnum 0)] "k" (JSValue.jstr "fresh"), JSValue.jstr "fresh") :=
  c10_cacheWrapper_falsy_is_miss "k" (fun _ => JSValue.jstr "fresh") [("k", JSValue.jnum 0)] (by decide)

/-- Claim C2 (counterexample): `reserveStock` itself performs no rollback: on a
two-item list whose second item lacks stock, the call reports failure while the
first item's decrement is still present in the store it returns — the net
stock state after the failed reservation differs from the state before it. -/
theorem c2_counterexample :
    (reserveStock
        [{ productId := "A", variantId := none, quantity := 2 },
         { productId := "B", variantId := none, quantity := 1 }]
        { products := [{ id := "A", name := "Alpha", price := 10, stockQuantity := 5, isActive := true },
                       { id := "B", name := "Beta", price := 20, stockQuantity := 0, isActive := true }],
          variants := [] }).2.success = false ∧
    stockOfU (reserveStock
        [{ productId := "A", variantId := none, quantity := 2 },
         { productId := "B", variantId := none, quantity := 1 }]
        { products := [{ id := "A", name := "Alpha", price := 10, stockQuantity := 5, isActive := true },
                       { id := "B", name := "Beta", price := 20, stockQuantity := 0, isActive := true }],
          variants := [] }).1 (UnitRef.productU "A") = 3 ∧
    stockOfU ({ products := [{ id := "A", name := "Alpha", price := 10, stockQuantity := 5, isActive := true },
                             { id := "B", name := "Beta", price := 20, stockQuantity := 0, isActive := true }],
                variants := [] } : Db) (UnitRef.productU "A") = 5 := by
  decide

/-- Claim C2 (amended): `reserveStock` performs no compensating increments of
its own; in `verifyPaymentAndCreateOrder` the failed reservation makes the
transaction body throw, so the surrounding `$transaction` discards every
decrement and the committed state equals the state before the call. -/
theorem c2_failed_reservation_rolled_back_by_transaction
    (fault : Option TxStep) (env : Env) (req : VerifyRequest)
    (temp : TempOrderData) (cid : Option String) (st : AppState)
    (hfail : (reserveStock req.cartData.items st.db).2.success = false) :
    runTx st (verifyTxBody fault env req temp cid) =
      (st, .error (jsOrStr (reserveStock req.cartData.items st.db).2.message
                    "Failed to reserve stock")) := by
  unfold runTx
  rw [verifyTxBody_fail hfail]

theorem c2_failed_reservation_rolled_back_by_transaction_witness :
    runTx (mkSt 0 tempOk) (verifyTxBody none benchEnv vreq tempOk none) =
      (mkSt 0 tempOk,
       .error (jsOrStr (reserveStock vreq.cartData.items (mkSt 0 tempOk).db).2.message
                "Failed to reserve stock")) :=
  c2_failed_reservation_rolled_back_by_transaction none benchEnv vreq tempOk none
    (mkSt 0 tempOk) (by decide)

/-- Claim C5: a confirmation whose HMAC-SHA256 signature does not match the
expected one is rejected before any state mutation, on both the synchronous
verify path and the webhook path. -/
theorem c5_signature_rejection (env : Env) (fault : Option TxStep) (req : VerifyRequest)
    (st : AppState) (env2 : Env) (wreq : WebhookReq) (st2 : AppState) :
    (env.hmac env.secret (sigBody req) ≠ req.razorpay_signature →
       verifyPaymentAndCreateOrder env fault req st = (st, .badSignature)) ∧
    (env2.hmac (env2.webhookSecret.getD "") wreq.rawBody ≠ wreq.signature.getD "" →
       handleWebhook env2 wreq st2 = (st2, .invalidSignature) ∨
       handleWebhook env2 wreq st2 = (st2, .missingSecretOrSig)) := by
  constructor
  · intro h
    unfold verifyPaymentAndCreateOrder
    rw [if_pos h]
  · intro h
    unfold handleWebhook
    simp only []
    split
    · exact Or.inr rfl
    · exact Or.inl rfl

theorem c5_signature_rejection_witness :
    verifyPaymentAndCreateOrder benchEnv none
        { vreq with razorpay_signature := "forged" } (mkSt 3 tempOk)
      = (mkSt 3 tempOk, VResult.badSignature) ∧
    (handleWebhook benchEnv
        { rawBody := "raw", signature := some "forged",
          event := { eventName := "payment.captured",
                     payment := { id := "p1", notesOrderId := some "o1" },
                     refund := { id := "rf", notesOrderId := none } } }
        (mkSt 3 tempOk)
      = (mkSt 3 tempOk, WebhookResp.invalidSignature) ∨
     handleWebhook benchEnv
        { rawBody := "raw", signature := some "forged",
          event := { eventName := "payment.captured",
                     payment := { id := "p1", notesOrderId := some "o1" },
                     refund := { id := "rf", notesOrderId := none } } }
        (mkSt 3 tempOk)
      = (mkSt 3 tempOk, WebhookResp.missingSecretOrSig)) := by
  constructor
  · exact (c5_signature_rejection benchEnv none { vreq with razorpay_signature := "forged" }
      (mkSt 3 tempOk) benchEnv
      { rawBody := "raw", signature := some "forged",
        event := { eventName := "payment.captured",
                   payment := { id := "p1", notesOrderId := some "o1" },
                   refund := { id := "rf", notesOrderId := none } } }
      (mkSt 3 tempOk)).1 (by decide)
  · exact (c5_signature_rejection benchEnv none { vreq with razorpay_signature := "forged" }
      (mkSt 3 tempOk) benchEnv
      { rawBody := "raw", signature := some "forged",
        event := { eventName := "payment.captured",
                   payment := { id := "p1", notesOrderId := some "o1" },
                   refund := { id := "rf", notesOrderId := none } } }
      (mkSt 3 tempOk)).2 (by decide)

theorem annotate_unit_qty (db : Db) (i : StockItem) :
    (annotate db i).unit = i.unit ∧ (annotate db i).quantity = i.quantity := by
  cases hvi : i.variantId with
  | some vid =>
    simp only [annotate, hvi]
    cases hf : db.variants.find? (fun v => v.id == vid) with
    | some v => exact ⟨by simp [ReservedItem.unit, StockItem.unit, hvi], rfl⟩
    | none => exact ⟨by simp [ReservedItem.unit, StockItem.unit, hvi], rfl⟩
  | none =>
    simp only [annotate, hvi]
    cases hf : db.products.find? (fun p => p.id == i.productId) with
    | some p => exact ⟨by simp [ReservedItem.unit, StockItem.unit, hvi], rfl⟩
    | none => exact ⟨by simp [ReservedItem.unit, StockItem.unit, hvi], rfl⟩

theorem rqtyU_annotate (db : Db) (items : List StockItem) (u : UnitRef) :
    rqtyU (items.map (annotate db)) u = qtyU items u := by
  unfold rqtyU qtyU
  rw [List.map_map]
  congr 1
  apply List.map_congr_left
  intro i _
  have h := annotate_unit_qty db i
  simp only [Function.comp]
  rw [h.1, h.2]

/-- Claim C1: over any serialized sequence of stock-reservation attempts
(`reserveStock` calls and `createOrder` runs) against a well-formed store, no
unit's available quantity ever becomes negative, the total successfully
reserved quantity at each unit never exceeds its initial stock, and a
`reserveStock` attempt can succeed only when every requested per-unit total is
at most the quantity available when the attempt runs (the check and decrement
being a single conditional update). -/
theorem c1_no_overselling (env : Env) (attempts : List Attempt) (st : AppState) (u : UnitRef)
    (hwf : dbWF st.db) (hq : ∀ a ∈ attempts, attemptQtysOK a) :
    (0 ≤ stockOfU (runAttempts env attempts st).1.db u ∧
     soldU (runAttempts env attempts st).2 u ≤ stockOfU st.db u) ∧
    (∀ (items : List StockItem) (db : Db), dbNonneg db → (∀ i ∈ items, 0 ≤ i.quantity) →
       (reserveStock items db).2.success = true → qtyU items u ≤ stockOfU db u) := by
  constructor
  · have h := runAttempts_stock env u attempts st hwf.1 hwf.2 hq
    have hfin := stockOfU_nonneg h.1 u
    exact ⟨hfin, by have := h.2.2; omega⟩
  · intro items db hnn hiq hs
    have hb := @reserveStock_bound items db u hnn hiq
    have hfin := stockOfU_nonneg hb.1 u
    have hann := (reserveStock_success_annotate hs).1
    have hsold : soldOf (reserveStock items db).2 u = qtyU items u := by
      unfold soldOf
      rw [if_pos hs, hann]
      simp only [Option.getD]
      exact rqtyU_annotate db items u
    have := hb.2
    rw [hsold] at this
    omega

theorem c1_no_overselling_witness :
    soldU (runAttempts benchEnv
        [Attempt.ledger [{ productId := "P1", variantId := none, quantity := 2 }],
         Attempt.ledger [{ productId := "P1", variantId := none, quantity := 2 }]]
        (mkSt 3 tempOk)).2 (UnitRef.productU "P1")
      ≤ stockOfU (mkSt 3 tempOk).db (UnitRef.productU "P1") :=
  ((c1_no_overselling benchEnv
      [Attempt.ledger [{ productId := "P1", variantId := none, quantity := 2 }],
       Attempt.ledger [{ productId := "P1", variantId := none, quantity := 2 }]]
      (mkSt 3 tempOk) (UnitRef.productU "P1") (by decide) (by decide)).1).2

/-- Claim C3: stock reservation and order persistence form one atomic unit in
`verifyPaymentAndCreateOrder`: whenever the transaction body fails — at stock
reservation or at any later store step before commit — the committed state
equals the pre-transaction state (stock unchanged, no order row); conversely a
persisted order implies the stock decrement is part of the committed state. -/
theorem c3_commit_atomicity (fault : Option TxStep) (env : Env) (req : VerifyRequest)
    (temp : TempOrderData) (cid : Option String) (st : AppState) :
    (∀ e, (runTx st (verifyTxBody fault env req temp cid)).2 = .error e →
       (runTx st (verifyTxBody fault env req temp cid)).1 = st) ∧
    (∀ s, fault = some s → (s ≠ TxStep.couponUpdate ∨ cid ≠ none) →
       (runTx st (verifyTxBody fault env req temp cid)).1 = st ∧
       ∀ o, (runTx st (verifyTxBody fault env req temp cid)).2 ≠ .ok o) ∧
    (∀ o, (runTx st (verifyTxBody fault env req temp cid)).2 = .ok o →
       (reserveStock req.cartData.items st.db).2.success = true ∧
       (runTx st (verifyTxBody fault env req temp cid)).1.db
         = (reserveStock req.cartData.items st.db).1 ∧
       (runTx st (verifyTxBody fault env req temp cid)).1.orders = o :: st.orders) := by
  refine ⟨?_, ?_, ?_⟩
  · intro e he
    unfold runTx at he ⊢
    cases hb : verifyTxBody fault env req temp cid st with
    | ok pr => rw [hb] at he; exact absurd he (by simp)
    | error e' => rfl
  · intro s hf hside
    subst hf
    cases hb : verifyTxBody (some s) env req temp cid st with
    | ok pr =>
      exact absurd hb (by
        have := @verifyTxBody_fault s env req temp cid st hside pr
        exact this)
    | error e =>
      constructor
      · unfold runTx
        rw [hb]
      · intro o ho
        unfold runTx at ho
        rw [hb] at ho
        exact absurd ho (by simp)
  · intro o ho
    unfold runTx at ho ⊢
    cases hb : verifyTxBody fault env req temp cid st with
    | error e => rw [hb] at ho; exact absurd ho (by simp)
    | ok pr =>
      obtain ⟨st', o'⟩ := pr
      rw [hb] at ho
      have ho2 : (Except.ok o' : Except String OrderRow) = Except.ok o := ho
      injection ho2 with ho2
      subst ho2
      have h := verifyTxBody_ok hb
      exact ⟨h.1, h.2.1, h.2.2.1⟩

theorem c3_commit_atomicity_witness :
    (runTx (mkSt 3 tempOk) (verifyTxBody (some TxStep.historyCreate) benchEnv vreq tempOk none)).1
      = mkSt 3 tempOk :=
  ((c3_commit_atomicity (some TxStep.historyCreate) benchEnv vreq tempOk none
      (mkSt 3 tempOk)).2.1 TxStep.historyCreate rfl (Or.inl (by decide))).1

/-- Claim C4 (code bug): delivering the same `payment.captured` webhook twice
is not idempotent: each delivery appends another status-history entry, so two
deliveries leave two entries and the second delivery does change state
(`paymentStatus` does converge to `PAID`). -/
theorem c4_webhook_replay_duplicates_history :
    (let env : Env := { benchEnv with hmac := fun _ _ => "sig" }
     let wreq : WebhookReq :=
       { rawBody := "raw", signature := some "sig",
         event := { eventName := "payment.captured",
                    payment := { id := "pay1", notesOrderId := some "o1" },
                    refund := { id := "rf", notesOrderId := none } } }
     let o1 : OrderRow :=
       { id := "o1", orderNumber := "N0", userId := "u1", status := OrderStatus.PENDING,
         paymentStatus := PaymentStatus.PENDING, paymentMethod := "razorpay",
         paymentId := none, shippingAddressId := "a1", subtotal := 100,
         discountAmount := 0, totalAmount := 100, couponId := none, trackingNumber := "T0" }
     let st0 : AppState :=
       { db := { products := [], variants := [] }, users := [], addresses := [],
         orders := [o1], orderItems := [], statusHistory := [], carts := [],
         cartItems := [], coupons := [], tempOrders := [] }
     let st1 := (handleWebhook env wreq st0).1
     let st2 := (handleWebhook env wreq st1).1
     (st1.statusHistory.filter (fun h => h.orderId == "o1")).length = 1 ∧
     (st2.statusHistory.filter (fun h => h.orderId == "o1")).length = 2 ∧
     st2 ≠ st1 ∧
     (st1.orders.map (fun o => o.paymentStatus)) = [PaymentStatus.PAID] ∧
     (st2.orders.map (fun o => o.paymentStatus)) = [PaymentStatus.PAID]) := by
  decide

/-- Claim C7: a successful `verifyPaymentAndCreateOrder` commit deletes the
`temp_order` record; a replayed confirmation with the same intent id (and a
valid signature and captured payment) observes the record missing, is rejected
as session-expired, and changes neither orders nor stock. -/
theorem c7_intent_read_once (env1 env2 : Env) (f1 f2 : Option TxStep) (req : VerifyRequest)
    (st st₁ : AppState) (oid : String)
    (h : verifyPaymentAndCreateOrder env1 f1 req st = (st₁, .success oid))
    (hsig : env2.hmac env2.secret (sigBody req) = req.razorpay_signature)
    (hcap : env2.paymentStatusOf req.razorpay_payment_id = "captured") :
    lookupTemp st₁ req.razorpay_order_id = none ∧
    verifyPaymentAndCreateOrder env2 f2 req st₁ = (st₁, .sessionExpired) := by
  have hmiss := verify_success_consumes h
  exact ⟨hmiss, verify_missing_record hsig hcap hmiss⟩

theorem c7_intent_read_once_witness :
    lookupTemp (verifyPaymentAndCreateOrder benchEnv none vreq (mkSt 3 tempOk)).1 "r1" = none ∧
    verifyPaymentAndCreateOrder benchEnv none vreq
        (verifyPaymentAndCreateOrder benchEnv none vreq (mkSt 3 tempOk)).1
      = ((verifyPaymentAndCreateOrder benchEnv none vreq (mkSt 3 tempOk)).1,
         VResult.sessionExpired) :=
  c7_intent_read_once benchEnv benchEnv none none vreq (mkSt 3 tempOk)
    (verifyPaymentAndCreateOrder benchEnv none vreq (mkSt 3 tempOk)).1 "o1"
    (by decide) (by decide) (by decide)

/-- `100.005`, written as a normalized rational so that kernel evaluation of
comparisons against it needs no arithmetic. -/
def qpenny : ℚ := ⟨20001, 200, by norm_num, by norm_num⟩

theorem qpenny_eq : qpenny = 20001 / 200 := by
  have h : qpenny = Rat.divInt 20001 200 := Rat.mk'_eq_divInt
  rw [h, Rat.divInt_eq_div]
  norm_num

/-- Claim C6 (counterexample): the source compares unit prices with exact
equality, not within an epsilon: a snapshot whose unit price deviates from the
authoritative price by `0.005` (within the `0.01` tolerance the claim
describes, as witnessed by the spec-modelled validator accepting it) is
rejected with a price mismatch. -/
theorem c6_counterexample :
    createRazorpayOrderFromCart benchEnv
        { userId := "u1",
          cartData := { items := [{ productId := "P1", variantId := none, quantity := 1, price := qpenny }],
                        subtotal := qpenny, tax := 0, discount := 0, total := qpenny,
                        couponCode := none, shippingAddressId := "a1" },
          userEmail := none, userPhone := none }
        (mkSt 5 tempOk)
      = (mkSt 5 tempOk, CRResult.productPriceMismatch "P1") ∧
    specValidateCart (mkSt 5 tempOk).db
        { items := [{ productId := "P1", variantId := none, quantity := 1, price := qpenny }],
          subtotal := qpenny, tax := 0, discount := 0, total := qpenny,
          couponCode := none, shippingAddressId := "a1" }
      = true := by
  constructor
  · decide
  · simp only [specValidateCart, mkSt, teeProduct, List.find?, List.all_cons, List.all_nil,
      List.map_cons, List.map_nil, List.sum_cons, List.sum_nil, Bool.and_eq_true,
      decide_eq_true_eq]
    norm_num [qpenny_eq, abs_le]

/-- Claim C6 (amended): for every line item the validator re-fetches the
authoritative price and compares it to the snapshot's unit price with **exact**
equality (a variant must also belong to the item's product, and a `null`
variant price never matches); only the recomputed subtotal is compared to the
declared subtotal within the `0.01` epsilon.  Any mismatch rejects the request
with no gateway order created, no intent stored and no other state change, and
nothing is silently corrected. -/
theorem c6_pricing_validation_amended (env : Env) (req : CreateFromCartReq) (st : AppState) :
    (∀ rid, (createRazorpayOrderFromCart env req st).2 = CRResult.success rid →
       unitPricesExact st.db req.cartData.items = true ∧
       abs (snapSubtotal req.cartData.items - req.cartData.subtotal) ≤ 1 / 100) ∧
    (∀ res, createRazorpayOrderFromCart env req st = res →
       (∀ rid, res.2 ≠ CRResult.success rid) → res.1 = st) := by
  constructor
  · intro rid hsucc
    unfold createRazorpayOrderFromCart at hsucc
    split at hsucc
    · exact absurd hsucc (by simp)
    · split at hsucc
      · exact absurd hsucc (by simp)
      · split at hsucc
        · rename_i e heq
          have he : e = CRResult.success rid := by simpa using hsucc
          rw [he] at heq
          exact absurd heq (validateCartItems_no_success _ _ _)
        · rename_i calc0 heq
          split at hsucc
          · exact absurd hsucc (by simp)
          · rename_i heps
            obtain ⟨hex, hsum⟩ := validateCartItems_ok _ _ _ heq
            refine ⟨hex, ?_⟩
            rw [not_lt] at heps
            rw [hsum, zero_add] at heps
            unfold snapSubtotal
            exact heps
  · intro res heq hne
    unfold createRazorpayOrderFromCart at heq
    split at heq
    · rw [← heq]
    · split at heq
      · rw [← heq]
      · split at heq
        · rw [← heq]
        · split at heq
          · rw [← heq]
          · exact absurd (by rw [← heq]) (hne env.razorpayOrderId)

theorem c6_pricing_validation_amended_witness :
    unitPricesExact (mkSt 5 tempOk).db snapOk.items = true ∧
    abs (snapSubtotal snapOk.items - snapOk.subtotal) ≤ 1 / 100 :=
  (c6_pricing_validation_amended benchEnv
      { userId := "u1", cartData := snapOk, userEmail := none, userPhone := none }
      (mkSt 5 tempOk)).1 "r1"
    (by
      have hval : validateCartItems (mkSt 5 tempOk).db snapOk.items 0
          = .ok (0 + 100 * ((1 : Int) : ℚ)) := by
        simp [validateCartItems, snapOk, mkSt, teeProduct, List.find?]
      unfold createRazorpayOrderFromCart
      rw [show (List.find? (fun u => u.id == "u1") (mkSt 5 tempOk).users)
            = some { id := "u1", email := "u@x", phone := none } from by decide]
      rw [show (List.find? (fun a => a.id == snapOk.shippingAddressId && a.userId == "u1")
              (mkSt 5 tempOk).addresses)
            = some { id := "a1", userId := "u1" } from by decide]
      rw [hval]
      simp only []
      rw [if_neg (by norm_num [snapOk])]
      rfl)

/-! Helper facts for claim C8. -/

theorem createOrderBody_total {env : Env} {req : COReq} {coupon : Option Coupon}
    {st st' : AppState} {o : OrderRow} {tg : List (UnitRef × Int)}
    (h : createOrderBody env req coupon st = (st', COResult.created o tg)) :
    o.totalAmount = o.subtotal - o.discountAmount := by
  unfold createOrderBody at h
  split at h
  · exact absurd (congrArg Prod.snd h) (by simp)
  · exact absurd (congrArg Prod.snd h) (by simp)
  · have h2 := congrArg Prod.snd h
    simp only [] at h2
    injection h2 with ho htg
    rw [← ho]

theorem createOrder_total {env : Env} {req : COReq} {st st' : AppState} {o : OrderRow}
    {tg : List (UnitRef × Int)}
    (h : createOrder env req st = (st', COResult.created o tg)) :
    o.totalAmount = o.subtotal - o.discountAmount := by
  unfold createOrder at h
  split at h
  · split at h
    · exact absurd (congrArg Prod.snd h) (by simp)
    · exact createOrderBody_total h
  · exact createOrderBody_total h

/-- A stored snapshot whose declared totals are inconsistent:
`subtotal 200`, `discount 0`, but `total 150`. -/
def tempBad : TempOrderData :=
  { tempOk with cartData := { snapOk with subtotal := 200, total := 150 } }

/-- The result of the verify transaction body on `tempBad` (projected out so a
closed witness can name the committed state and order). -/
def c8pair : AppState × OrderRow :=
  (verifyTxBody none benchEnv vreq tempBad none (mkSt 3 tempBad)).toOption.getD
    (mkSt 3 tempBad,
     { id := "", orderNumber := "", userId := "", status := OrderStatus.PENDING,
       paymentStatus := PaymentStatus.PENDING, paymentMethod := "", paymentId := none,
       shippingAddressId := "", subtotal := 0, discountAmount := 0, totalAmount := 0,
       couponId := none, trackingNumber := "" })

/-- Claim C8 (counterexample): `verifyPaymentAndCreateOrder` copies the stored
snapshot's `subtotal`, `discount` and `total` into the order unchecked, so a
snapshot with `subtotal 200`, `discount 0`, `total 150` yields a persisted
order violating `totalAmount = subtotal - discountAmount`. -/
theorem c8_counterexample :
    (verifyPaymentAndCreateOrder benchEnv none vreq (mkSt 3 tempBad)).2
      = VResult.success "o1" ∧
    (verifyPaymentAndCreateOrder benchEnv none vreq (mkSt 3 tempBad)).1.orders
      = [{ id := "o1", orderNumber := "N1", userId := "u1", status := OrderStatus.CONFIRMED,
           paymentStatus := PaymentStatus.PAID, paymentMethod := "razorpay",
           paymentId := some "p1", shippingAddressId := "a1", subtotal := 200,
           discountAmount := 0, totalAmount := 150, couponId := none, trackingNumber := "T1" }] ∧
    ¬ ((150 : ℚ) = 200 - 0) := by
  refine ⟨by decide, by decide, by norm_num⟩

/-- Claim C8 (amended): an order created by `createOrder` satisfies
`totalAmount = subtotal - discountAmount` by construction, while an order
created by `verifyPaymentAndCreateOrder`'s transaction has its `subtotal`,
`discountAmount` and `totalAmount` copied verbatim from the stored cart
snapshot, so the identity holds there only if the client-supplied snapshot
already satisfies it. -/
theorem c8_total_amount_amended :
    (∀ (env : Env) (req : COReq) (st st' : AppState) (o : OrderRow) (tg : List (UnitRef × Int)),
        createOrder env req st = (st', COResult.created o tg) →
        o.totalAmount = o.subtotal - o.discountAmount) ∧
    (∀ (fault : Option TxStep) (env : Env) (req : VerifyRequest) (temp : TempOrderData)
        (cid : Option String) (st st' : AppState) (o : OrderRow),
        verifyTxBody fault env req temp cid st = .ok (st', o) →
        o.subtotal = temp.cartData.subtotal ∧ o.discountAmount = temp.cartData.discount ∧
        o.totalAmount = temp.cartData.total) := by
  constructor
  · intro env req st st' o tg h
    exact createOrder_total h
  · intro fault env req temp cid st st' o h
    have hh := verifyTxBody_ok h
    exact ⟨hh.2.2.2.1, hh.2.2.2.2.1, hh.2.2.2.2.2.1⟩

theorem c8_total_amount_amended_witness :
    c8pair.2.subtotal = tempBad.cartData.subtotal ∧
    c8pair.2.discountAmount = tempBad.cartData.discount ∧
    c8pair.2.totalAmount = tempBad.cartData.total :=
  c8_total_amount_amended.2 none benchEnv vreq tempBad none
    (mkSt 3 tempBad) c8pair.1 c8pair.2 rfl

end Kulangara
